import Mathlib

/-!
# Verification of `ircd/ssl.c`

A shallow embedding of the TLS adapter of the IRC daemon (`src/ircd/ssl.c`).

* Pointers to library objects (`SSL *`, `SSL_CTX *`) are handles `Option Nat`,
  `none` being `NULL`.
* Results of calls into the TLS library and the operating system are inputs of
  the embedded functions (oracle values): the embedding fixes what the adapter
  does with every possible answer of its collaborators.
* Every embedded function returns, next to its C result, the list of calls it
  made on sessions, contexts, descriptors, sockets and listeners, in program
  order.  `Debug` logging is not part of the trace.
-/

namespace IrcdSsl

/-! ## Common types -/

/-- The `SSL *` handle of a session; `none` is `NULL`. -/
abbrev SSLp := Option Nat

/-- The `SSL_CTX *` handle of a context; `none` is `NULL`. -/
abbrev CTXp := Option Nat

/-- The socket layer's `IOResult` enumeration (declared in `ircd_osdep.h`); the
three values are the ones `ssl.c` returns. -/
inductive IOResult
  | IO_FAILURE
  | IO_BLOCKED
  | IO_SUCCESS
  deriving DecidableEq

/-- The value of `SSL_get_error`: the codes `ssl.c` names in a `case` label or
comparison, the two further handshake codes of the library, and `OTHER` for
any code the source does not name. -/
inductive SslError
  | SSL_ERROR_NONE
  | SSL_ERROR_SSL
  | SSL_ERROR_WANT_READ
  | SSL_ERROR_WANT_WRITE
  | SSL_ERROR_WANT_X509_LOOKUP
  | SSL_ERROR_SYSCALL
  | SSL_ERROR_ZERO_RETURN
  | SSL_ERROR_WANT_CONNECT
  | SSL_ERROR_WANT_ACCEPT
  | OTHER (code : Nat)
  deriving DecidableEq

/-- The platform's values of the `errno` constants `ssl.c` compares against
(`errno.h`); a parameter of the embedding. -/
structure ErrnoCodes where
  EINTR : Int
  EAGAIN : Int
  EWOULDBLOCK : Int
  EBUSY : Int

/-- The Linux values of the `errno` constants. -/
def linuxErrno : ErrnoCodes :=
  { EINTR := 4, EAGAIN := 11, EWOULDBLOCK := 11, EBUSY := 16 }

/-- Event types of the event engine (declared in `ircd_events.h`).  `ssl.c`
names `ET_DESTROY`, `ET_ERROR`, `ET_EOF`, `ET_READ` and `ET_WRITE`; the others
fall to the `default` label of `ssl_sock_callback`. -/
inductive EventType
  | ET_READ
  | ET_WRITE
  | ET_ACCEPT
  | ET_CONNECT
  | ET_EOF
  | ET_ERROR
  | ET_SIGNAL
  | ET_EXPIRE
  | ET_DESTROY
  deriving DecidableEq

/-- A call made by the adapter on one of its collaborators. -/
inductive Call
  | ssl_init_server_ctx
  | ssl_init_client_ctx
  | SSL_CTX_free (ctx : CTXp)
  | SSL_new (ctx : CTXp)
  | SSL_set_fd (ssl : SSLp) (fd : Int)
  | SSL_free (ssl : SSLp)
  | SSL_accept (ssl : SSLp)
  | SSL_connect (ssl : SSLp)
  | SSL_read (ssl : SSLp) (length : Nat)
  | SSL_write (ssl : SSLp) (k : Nat) (len : Nat)
  | SSL_shutdown (ssl : SSLp)
  | write (fd : Int) (buf : String) (len : Nat)
  | close (fd : Int)
  | os_set_nonblocking (fd : Int)
  | os_disable_options (fd : Int)
  | MyMalloc
  | MyFree
  | socket_add (fd : Int)
  | socket_del
  | add_connection (listener : Nat) (fd : Int) (ssl : SSLp)
  | msgq_mapiov
  deriving DecidableEq

/-- The C conversion `(unsigned) res` of an `int` to a 32-bit `unsigned`. -/
def toUnsigned (res : Int) : Nat := (res % 2 ^ 32).toNat

/-! ## Context manager: `ssl_init_server_ctx`, `ssl_init_client_ctx`, `ssl_reinit` -/

/-- The answers of the TLS library during one context build: the result of
`SSL_CTX_new`, of `SSL_CTX_use_certificate_chain_file` and of
`SSL_CTX_use_PrivateKey_file`. -/
structure CtxBuild where
  ctx_new : CTXp
  use_certificate : Int
  use_private_key : Int

/-- Embedding of `ssl_init_server_ctx`: the context built, or `NULL`. -/
def ssl_init_server_ctx (b : CtxBuild) : CTXp :=
  match b.ctx_new with
  | none => none
  | some c =>
    if b.use_certificate ≤ 0 then none
    else if b.use_private_key ≤ 0 then none
    else some c

/-- Embedding of `ssl_init_client_ctx`: the context built, or `NULL`. -/
def ssl_init_client_ctx (b : CtxBuild) : CTXp :=
  match b.ctx_new with
  | none => none
  | some c =>
    if b.use_certificate ≤ 0 then none
    else if b.use_private_key ≤ 0 then none
    else some c

/-- The two process-wide contexts `ssl_server_ctx` and `ssl_client_ctx`. -/
structure Globals where
  ssl_server_ctx : CTXp
  ssl_client_ctx : CTXp
  deriving DecidableEq

/-- Result of `ssl_reinit`: the `int` returned, the globals after the call and
the calls `ssl_reinit` itself made. -/
structure ReinitResult where
  ret : Int
  globals : Globals
  calls : List Call
  deriving DecidableEq

/-- Embedding of `ssl_reinit`.  `s1`, `s2` are the library's answers to the
first and second call of `ssl_init_server_ctx`, `c1`, `c2` those to the two
calls of `ssl_init_client_ctx`. -/
def ssl_reinit (g : Globals) (s1 s2 c1 c2 : CtxBuild) : ReinitResult :=
  -- temp_ctx = ssl_init_server_ctx(); if (!temp_ctx) return -1;
  match ssl_init_server_ctx s1 with
  | none => { ret := -1, globals := g, calls := [Call.ssl_init_server_ctx] }
  | some temp =>
    -- SSL_CTX_free(temp_ctx); SSL_CTX_free(ssl_server_ctx);
    -- ssl_server_ctx = ssl_init_server_ctx();
    let g1 : Globals := { g with ssl_server_ctx := ssl_init_server_ctx s2 }
    let t1 := [Call.ssl_init_server_ctx, Call.SSL_CTX_free (some temp),
               Call.SSL_CTX_free g.ssl_server_ctx, Call.ssl_init_server_ctx]
    -- temp_ctx = ssl_init_client_ctx(); if (!temp_ctx) return -1;
    match ssl_init_client_ctx c1 with
    | none => { ret := -1, globals := g1, calls := t1 ++ [Call.ssl_init_client_ctx] }
    | some temp2 =>
      -- SSL_CTX_free(temp_ctx); SSL_CTX_free(ssl_client_ctx);
      -- ssl_client_ctx = ssl_init_client_ctx();
      { ret := 0
        globals := { g1 with ssl_client_ctx := ssl_init_client_ctx c2 }
        calls := t1 ++ [Call.ssl_init_client_ctx, Call.SSL_CTX_free (some temp2),
                        Call.SSL_CTX_free g.ssl_client_ctx, Call.ssl_init_client_ctx] }

/-! ## Accept side: `ssl_abort`, `ssl_accept`, `ssl_sock_callback`, `ssl_add_connection` -/

/-- The fields of `struct ssl_data` the adapter uses: the owning listener, the
descriptor and the session of the embedded socket (`data->socket.ssl`). -/
structure ssl_data where
  listener : Nat
  fd : Int
  ssl : SSLp
  deriving DecidableEq

/-- Embedding of `ssl_abort`: the calls it makes. -/
def ssl_abort (data : ssl_data) : List Call :=
  [Call.SSL_free data.ssl, Call.close data.fd, Call.socket_del]

/-- The answers of the TLS library during one `ssl_accept`: the result of
`SSL_accept`, of `ERR_get_error` and of `SSL_is_init_finished`, and the value
`SSL_get_error` has for the step.  `ssl_accept` reads the first three; it never
calls `SSL_get_error`, so `ssl_error` is the library's own classification of
the step, which the code does not consult. -/
structure AcceptOutcome where
  accept_ret : Int
  err : Nat
  init_finished : Bool
  ssl_error : SslError
  deriving DecidableEq

/-- The constant `error_ssl` of `ssl_accept`. -/
def error_ssl : String := "ERROR :SSL connection error\r\n"

/-- Embedding of `ssl_accept`: the calls it makes.  The result of `write` is not
an input: the source discards it. -/
def ssl_accept (data : ssl_data) (o : AcceptOutcome) : List Call :=
  if o.accept_ret ≤ 0 then
    if o.err ≠ 0 then
      [Call.SSL_accept data.ssl, Call.write data.fd error_ssl error_ssl.length] ++ ssl_abort data
    else
      [Call.SSL_accept data.ssl]
  else if o.init_finished then
    [Call.SSL_accept data.ssl, Call.socket_del,
     Call.add_connection data.listener data.fd data.ssl]
  else
    [Call.SSL_accept data.ssl]

/-- A pending inbound connection: the listener's `ref_count` as `ssl.c` itself
changes it, the `ssl_data` record registered with the event engine, and the
calls made so far. -/
structure Pending where
  ref_count : Int
  data : ssl_data
  calls : List Call
  deriving DecidableEq

/-- Embedding of `ssl_sock_callback` for one event; `o` holds the library's
answers should the event lead to `ssl_accept`. -/
def ssl_sock_callback (s : Pending) (ev : EventType) (o : AcceptOutcome) : Pending :=
  match ev with
  | EventType.ET_DESTROY =>
    { s with ref_count := s.ref_count - 1, calls := s.calls ++ [Call.MyFree] }
  | EventType.ET_ERROR => { s with calls := s.calls ++ ssl_abort s.data }
  | EventType.ET_EOF => { s with calls := s.calls ++ ssl_abort s.data }
  | EventType.ET_READ => { s with calls := s.calls ++ ssl_accept s.data o }
  | EventType.ET_WRITE => { s with calls := s.calls ++ ssl_accept s.data o }
  | _ => s

/-- The answers of the collaborators during `ssl_add_connection`: the results
of `os_set_nonblocking`, `socket_add` and `SSL_new`. -/
structure AddOutcome where
  set_nonblocking : Bool
  socket_add : Bool
  ssl_new : SSLp

/-- Result of `ssl_add_connection`: the listener's `ref_count` after the call,
the `ssl_data` record left registered with the event engine (if `socket_add`
succeeded), and the calls made. -/
structure AddResult where
  ref_count : Int
  data : Option ssl_data
  calls : List Call
  deriving DecidableEq

/-- Embedding of `ssl_add_connection`. -/
def ssl_add_connection (ref_count : Int) (listener : Nat) (fd : Int)
    (ssl_server_ctx : CTXp) (o : AddOutcome) : AddResult :=
  if !o.set_nonblocking then
    { ref_count := ref_count, data := none,
      calls := [Call.os_set_nonblocking fd, Call.close fd] }
  else if !o.socket_add then
    { ref_count := ref_count, data := none,
      calls := [Call.os_set_nonblocking fd, Call.os_disable_options fd, Call.MyMalloc,
                Call.socket_add fd, Call.close fd] }
  else
    match o.ssl_new with
    | none =>
      { ref_count := ref_count, data := some { listener := listener, fd := fd, ssl := none },
        calls := [Call.os_set_nonblocking fd, Call.os_disable_options fd, Call.MyMalloc,
                  Call.socket_add fd, Call.SSL_new ssl_server_ctx, Call.close fd] }
    | some s =>
      { ref_count := ref_count + 1,
        data := some { listener := listener, fd := fd, ssl := some s },
        calls := [Call.os_set_nonblocking fd, Call.os_disable_options fd, Call.MyMalloc,
                  Call.socket_add fd, Call.SSL_new ssl_server_ctx,
                  Call.SSL_set_fd (some s) fd] }

/-- One event delivered to `ssl_sock_callback` together with the library's
answers for it. -/
abbrev Delivery := EventType × AcceptOutcome

/-- The callback applied to a sequence of deliveries, in order. -/
def deliver (s : Pending) : List Delivery → Pending
  | [] => s
  | d :: rest => deliver (ssl_sock_callback s d.1 d.2) rest

/-- Modelled from the spec: the event engine (`ircd_events.c`) is not among the
sources at hand.  This is the discipline under which it delivers events to the
callback of one socket, as the reference-count property assumes it: every
`socket_del` is followed by exactly one `ET_DESTROY`, delivered as the next
event and on no other occasion, and nothing is delivered once the record was
freed. -/
def engineDiscipline (s : Pending) : List Delivery → Bool
  | [] => true
  | d :: rest =>
    (if Call.MyFree ∈ s.calls then false
     else if Call.socket_del ∈ s.calls then decide (d.1 = EventType.ET_DESTROY)
     else decide (d.1 ≠ EventType.ET_DESTROY))
    && engineDiscipline (ssl_sock_callback s d.1 d.2) rest

/-! ## I/O adapter: `ssl_recv`, `ssl_sendv` -/

/-- Result of `ssl_recv`: the `IOResult` returned, `*count_out`, and the calls
made on the session. -/
structure RecvResult where
  ret : IOResult
  count_out : Nat
  calls : List Call
  deriving DecidableEq

/-- Embedding of `ssl_recv`.  `res` is the result of `SSL_read`, `err` the
value of `SSL_get_error` for it and `errno` the value of `errno` after the
call. -/
def ssl_recv (E : ErrnoCodes) (ssl : SSLp) (length : Nat)
    (res : Int) (err : SslError) (errno : Int) : RecvResult :=
  match err with
  | SslError.SSL_ERROR_NONE =>
    { ret := IOResult.IO_SUCCESS, count_out := toUnsigned res,
      calls := [Call.SSL_read ssl length] }
  | SslError.SSL_ERROR_WANT_WRITE =>
    { ret := IOResult.IO_BLOCKED, count_out := 0, calls := [Call.SSL_read ssl length] }
  | SslError.SSL_ERROR_WANT_READ =>
    { ret := IOResult.IO_BLOCKED, count_out := 0, calls := [Call.SSL_read ssl length] }
  | SslError.SSL_ERROR_WANT_X509_LOOKUP =>
    { ret := IOResult.IO_BLOCKED, count_out := 0, calls := [Call.SSL_read ssl length] }
  | SslError.SSL_ERROR_SYSCALL =>
    if res < 0 ∧ errno = E.EINTR then
      { ret := IOResult.IO_BLOCKED, count_out := 0, calls := [Call.SSL_read ssl length] }
    else
      { ret := IOResult.IO_FAILURE, count_out := 0, calls := [Call.SSL_read ssl length] }
  | SslError.SSL_ERROR_ZERO_RETURN =>
    { ret := IOResult.IO_FAILURE, count_out := 0,
      calls := [Call.SSL_read ssl length, Call.SSL_shutdown ssl] }
  | _ =>
    { ret := IOResult.IO_FAILURE, count_out := 0, calls := [Call.SSL_read ssl length] }

/-- The answers of the TLS library to one `SSL_write`: its result, the value of
`SSL_get_error` for it, and the value of `errno` after the call. -/
structure WriteOutcome where
  res : Int
  err : SslError
  errno : Int

/-- Result of `ssl_sendv`: the `IOResult` returned, `*count_in`, `*count_out`
and the calls made. -/
structure SendvResult where
  ret : IOResult
  count_in : Nat
  count_out : Nat
  calls : List Call
  deriving DecidableEq

/-- The `for` loop of `ssl_sendv` from range `k` on: `iov` holds the lengths of
the ranges `k`, `k+1`, … still to attempt, `retval` and `count_out` are the
values of the C variables on entry and `calls` the calls made so far.  The
result is what `ssl_sendv` returns, the final `*count_out` and the calls.
`o j` holds the library's answers to the `SSL_write` of range `j`. -/
def ssl_sendv_loop (E : ErrnoCodes) (ssl : SSLp) (o : Nat → WriteOutcome) :
    List Nat → Nat → IOResult → Nat → List Call → IOResult × Nat × List Call
  | [], _, retval, count_out, calls => (retval, count_out, calls)
  | len :: rest, k, retval, count_out, calls =>
    let calls1 := calls ++ [Call.SSL_write ssl k len]
    match (o k).err with
    | SslError.SSL_ERROR_NONE =>
      ssl_sendv_loop E ssl o rest (k + 1) IOResult.IO_SUCCESS
        ((count_out + toUnsigned (o k).res) % 2 ^ 32) calls1
    | SslError.SSL_ERROR_WANT_WRITE => (retval, count_out, calls1)
    | SslError.SSL_ERROR_WANT_READ => (retval, count_out, calls1)
    | SslError.SSL_ERROR_WANT_X509_LOOKUP => (retval, count_out, calls1)
    | SslError.SSL_ERROR_SSL => (IOResult.IO_FAILURE, count_out, calls1)
    | SslError.SSL_ERROR_SYSCALL =>
      if (o k).res < 0 ∧ ((o k).errno = E.EWOULDBLOCK ∨ (o k).errno = E.EINTR ∨
                          (o k).errno = E.EBUSY ∨ (o k).errno = E.EAGAIN) then
        (retval, count_out, calls1)
      else
        (IOResult.IO_FAILURE, count_out, calls1)
    | SslError.SSL_ERROR_ZERO_RETURN =>
      (IOResult.IO_FAILURE, count_out, calls1 ++ [Call.SSL_shutdown ssl])
    | _ => (retval, count_out, calls1)

/-- Embedding of `ssl_sendv`.  `iov` and `count_in` are the answer of
`msgq_mapiov` (`ircd/msgq.c`) on the queue `buf`: the lengths `iov_len` of the
`count` ranges it mapped, in order, and the number of bytes it stored in
`*count_in`.  The only call `ssl_sendv` makes on the queue is that one. -/
def ssl_sendv (E : ErrnoCodes) (ssl : SSLp) (iov : List Nat) (count_in : Nat)
    (o : Nat → WriteOutcome) : SendvResult :=
  let r := ssl_sendv_loop E ssl o iov 0 IOResult.IO_BLOCKED 0 [Call.msgq_mapiov]
  { ret := r.1, count_in := count_in, count_out := r.2.1, calls := r.2.2 }

/-- The answers of the library that make a call on a single range behave as
the given outcome. -/
def single (res : Int) (err : SslError) (errno : Int) : Nat → WriteOutcome :=
  fun _ => { res := res, err := err, errno := errno }

/-! ## Connect side: `ssl_connect` -/

/-- The fields of `struct Socket` used by `ssl_connect`. -/
structure Socket where
  ssl : SSLp
  s_fd : Int
  deriving DecidableEq

/-- Result of `ssl_connect`: the `int` returned, the socket after the call and
the calls made. -/
structure ConnectResult where
  ret : Int
  sock : Socket
  calls : List Call
  deriving DecidableEq

/-- Embedding of `ssl_connect`.  `new_ssl` is the answer of `SSL_new` should it
be called, `r` the result of `SSL_connect` and `err` the value of
`SSL_get_error` for it (the source evaluates `SSL_get_error(sock->ssl, r)`
twice on the same state; both evaluations are this one value). -/
def ssl_connect (ssl_client_ctx : CTXp) (sock : Socket) (new_ssl : SSLp)
    (r : Int) (err : SslError) : ConnectResult :=
  let sock1 : Socket :=
    match sock.ssl with
    | none => { sock with ssl := new_ssl }
    | some _ => sock
  let calls0 : List Call :=
    match sock.ssl with
    | none => [Call.SSL_new ssl_client_ctx, Call.SSL_set_fd new_ssl sock.s_fd]
    | some _ => []
  let calls1 := calls0 ++ [Call.SSL_connect sock1.ssl]
  if r ≤ 0 then
    if err = SslError.SSL_ERROR_WANT_WRITE ∨ err = SslError.SSL_ERROR_WANT_READ then
      { ret := 0, sock := sock1, calls := calls1 }
    else
      { ret := -1, sock := sock1, calls := calls1 }
  else
    { ret := 1, sock := sock1, calls := calls1 }

/-! ## Introspection: `binary_to_hex`, `ssl_get_fingerprint` -/

/-- An `unsigned char`. -/
abbrev UChar := Fin 256

/-- A `char` buffer in memory, by index. -/
abbrev Buf := Nat → Char

/-- The terminating `NUL` character. -/
def NUL : Char := Char.ofNat 0

/-- The table `trans` of `binary_to_hex`, with its terminating `NUL`. -/
def trans : List Char :=
  ['0', '1', '2', '3', '4', '5', '6', '7', '8', '9', 'A', 'B', 'C', 'D', 'E', 'F', NUL]

/-- The `for` loop of `binary_to_hex`: `n` iterations remain, starting at
index `i`. -/
def binary_to_hex_loop (bin : Nat → UChar) : Nat → Nat → Buf → Buf
  | 0, _, hex => hex
  | n + 1, i, hex =>
    let hex1 := Function.update hex (i <<< 1) (trans.getD ((bin i).val >>> 4) NUL)
    let hex2 := Function.update hex1 ((i <<< 1) + 1) (trans.getD ((bin i).val &&& 0xf) NUL)
    binary_to_hex_loop bin n (i + 1) hex2

/-- Embedding of `binary_to_hex`: the buffer `hex` after the call.  The loop
runs `length` times (not at all for `length <= 0`) and leaves `i` at that
count. -/
def binary_to_hex (bin : Nat → UChar) (hex : Buf) (length : Int) : Buf :=
  Function.update (binary_to_hex_loop bin length.toNat 0 hex) (length.toNat <<< 1) NUL

/-- Embedding of `ssl_get_fingerprint`.  `cert` is the answer of
`SSL_get_peer_certificate`, `digest` that of `X509_digest` on the certificate
(`none` when it returns 0, else the digest bytes `md` and their number `n`),
`hex` the static buffer before the call.  The result is `NULL` or the static
buffer after the call. -/
def ssl_get_fingerprint (hex : Buf) (cert : Option Nat)
    (digest : Nat → Option ((Nat → UChar) × Nat)) : Option Buf :=
  match cert with
  | none => none
  | some c =>
    match digest c with
    | none => none
    | some (md, n) => some (binary_to_hex md hex (n : Int))

/-- The uppercase hexadecimal digit of a nibble, as the specification words
it: `0`-`9` for values below ten, `A`-`F` for ten to fifteen. -/
def upperHexDigit (d : Nat) : Char :=
  if d < 10 then Char.ofNat (48 + d) else Char.ofNat (65 + (d - 10))

/-- A character in `0`-`9` or `A`-`F`. -/
def isUpperHex (c : Char) : Bool :=
  (decide ('0' ≤ c) && decide (c ≤ '9')) || (decide ('A' ≤ c) && decide (c ≤ 'F'))

/-! ## Notions used to state the properties -/

/-- The calls `SSL_write` on consecutive ranges of the given lengths, the first
being range `k`. -/
def writesOf (ssl : SSLp) : Nat → List Nat → List Call
  | _, [] => []
  | k, len :: rest => Call.SSL_write ssl k len :: writesOf ssl (k + 1) rest

/-- A Blocked step, as the specification words it (§4.2): the step did not
complete and the underlying transport would block in either direction
(`SSL_ERROR_WANT_READ` or `SSL_ERROR_WANT_WRITE`). -/
def AcceptOutcome.blocked (o : AcceptOutcome) : Bool :=
  decide (o.accept_ret ≤ 0) &&
    (decide (o.ssl_error = SslError.SSL_ERROR_WANT_READ) ||
     decide (o.ssl_error = SslError.SSL_ERROR_WANT_WRITE))

/-- An Established step, as the specification words it (§4.3): the step
succeeded and the handshake is reported fully completed. -/
def AcceptOutcome.established (o : AcceptOutcome) : Bool :=
  decide (0 < o.accept_ret) && o.init_finished

/-- The call is an `add_connection`. -/
def isAddConnection : Call → Bool
  | Call.add_connection _ _ _ => true
  | _ => false

/-- The pending connection a call of `ssl_add_connection` leaves registered
with the event engine, if any. -/
def AddResult.pending (r : AddResult) : Option Pending :=
  r.data.map fun d => { ref_count := r.ref_count, data := d, calls := r.calls }

/-- The call of `ssl_add_connection` reached its end: the descriptor was made
non-blocking, the socket registered and the session created. -/
def AddOutcome.started (o : AddOutcome) : Bool :=
  o.set_nonblocking && o.socket_add && o.ssl_new.isSome

/-- The reference-count invariant of a pending connection whose session was
started with the listener's count at `r0`: the record was freed at most once,
`socket_del` was called at most once, the count is `r0 + 1` less the number of
`ET_DESTROY` deliveries, a delivery of `ET_DESTROY` came after `socket_del`, and
`add_connection` was called at most as often as `socket_del`. -/
def RefInv (r0 : Int) (t : Pending) : Prop :=
  List.count Call.MyFree t.calls ≤ List.count Call.socket_del t.calls ∧
  List.count Call.socket_del t.calls ≤ 1 ∧
  t.ref_count = r0 + 1 - (List.count Call.MyFree t.calls : Int) ∧
  List.countP isAddConnection t.calls ≤ List.count Call.socket_del t.calls

instance (r0 : Int) (t : Pending) : Decidable (RefInv r0 t) := by
  unfold RefInv
  infer_instance

/-- A sample of collaborator answers for which `ssl_add_connection` starts a
session (handle 9). -/
def sampleAdd : AddOutcome := { set_nonblocking := true, socket_add := true, ssl_new := some 9 }

/-- The pending connection `ssl_add_connection 5 1 7 (some 3) sampleAdd` leaves
registered. -/
def samplePending : Pending :=
  { ref_count := 6
    data := { listener := 1, fd := 7, ssl := some 9 }
    calls := [Call.os_set_nonblocking 7, Call.os_disable_options 7, Call.MyMalloc,
              Call.socket_add 7, Call.SSL_new (some 3), Call.SSL_set_fd (some 9) 7] }

/-- A sample delivery sequence: three blocked accept steps, one that completes
the handshake, then the `ET_DESTROY` that follows `socket_del`. -/
def sampleDeliveries : List Delivery :=
  [(EventType.ET_READ, { accept_ret := -1, err := 0, init_finished := false,
                         ssl_error := SslError.SSL_ERROR_WANT_READ }),
   (EventType.ET_WRITE, { accept_ret := -1, err := 0, init_finished := false,
                          ssl_error := SslError.SSL_ERROR_WANT_WRITE }),
   (EventType.ET_READ, { accept_ret := -1, err := 0, init_finished := false,
                         ssl_error := SslError.SSL_ERROR_WANT_READ }),
   (EventType.ET_READ, { accept_ret := 1, err := 0, init_finished := true,
                         ssl_error := SslError.SSL_ERROR_NONE }),
   (EventType.ET_DESTROY, { accept_ret := 0, err := 0, init_finished := false,
                            ssl_error := SslError.SSL_ERROR_NONE })]

/-- The answers of the library in the 10/20/30 scenario: the first `SSL_write`
returns 10 with `SSL_ERROR_NONE`, every later one would block
(`SSL_ERROR_WANT_WRITE`, result -1, `errno` 11). -/
def tenThenBlock : Nat → WriteOutcome := fun k =>
  if k = 0 then { res := 10, err := SslError.SSL_ERROR_NONE, errno := 0 }
  else { res := -1, err := SslError.SSL_ERROR_WANT_WRITE, errno := 11 }

/-- The answers of the library when the first `SSL_write` returns 10 with
`SSL_ERROR_NONE` and the peer's close-notify is seen on every later one. -/
def tenThenZeroReturn : Nat → WriteOutcome := fun k =>
  if k = 0 then { res := 10, err := SslError.SSL_ERROR_NONE, errno := 0 }
  else { res := 0, err := SslError.SSL_ERROR_ZERO_RETURN, errno := 0 }

/-! ## Theorems -/

/-! ### `binary_to_hex` -/

set_option maxRecDepth 100000 in
theorem trans_high_nibble (b : UChar) :
    trans.getD (b.val >>> 4) NUL = upperHexDigit (b.val / 16) := by
  revert b; decide

set_option maxRecDepth 100000 in
theorem trans_low_nibble (b : UChar) :
    trans.getD (b.val &&& 0xf) NUL = upperHexDigit (b.val % 16) := by
  revert b; decide

theorem upperHexDigit_isUpperHex (d : Nat) (h : d < 16) :
    isUpperHex (upperHexDigit d) = true := by
  interval_cases d <;> decide

theorem upperHexDigit_ne_NUL (d : Nat) (h : d < 16) : upperHexDigit d ≠ NUL := by
  interval_cases d <;> decide

/-- The loop leaves every position outside `2i .. 2(i+n)-1` as it was. -/
theorem binary_to_hex_loop_outside (bin : Nat → UChar) (n : Nat) :
    ∀ (i : Nat) (hex : Buf) (j : Nat), (j < 2 * i ∨ 2 * (i + n) ≤ j) →
      binary_to_hex_loop bin n i hex j = hex j := by
  induction n with
  | zero => intro i hex j _; rfl
  | succ n ih =>
    intro i hex j hj
    simp only [binary_to_hex_loop]
    rw [ih (i + 1) _ j (by omega)]
    have h1 : j ≠ (i <<< 1) + 1 := by rw [Nat.shiftLeft_eq]; omega
    have h2 : j ≠ i <<< 1 := by rw [Nat.shiftLeft_eq]; omega
    rw [Function.update_noteq h1, Function.update_noteq h2]

/-- The loop writes the two table characters of byte `i + t` at positions
`2(i+t)` and `2(i+t)+1`. -/
theorem binary_to_hex_loop_inside (bin : Nat → UChar) (n : Nat) :
    ∀ (i : Nat) (hex : Buf) (t : Nat), t < n →
      binary_to_hex_loop bin n i hex (2 * (i + t)) = trans.getD ((bin (i + t)).val >>> 4) NUL ∧
      binary_to_hex_loop bin n i hex (2 * (i + t) + 1)
        = trans.getD ((bin (i + t)).val &&& 0xf) NUL := by
  induction n with
  | zero => intro i hex t ht; omega
  | succ n ih =>
    intro i hex t ht
    simp only [binary_to_hex_loop]
    cases t with
    | zero =>
      have e : i <<< 1 = 2 * i := by rw [Nat.shiftLeft_eq]; omega
      rw [binary_to_hex_loop_outside bin n (i + 1) _ (2 * (i + 0)) (by omega),
          binary_to_hex_loop_outside bin n (i + 1) _ (2 * (i + 0) + 1) (by omega), e]
      constructor
      · rw [Function.update_noteq (by omega)]
        simp
      · simp
    | succ t =>
      have := ih (i + 1) (Function.update
        (Function.update hex (i <<< 1) (trans.getD ((bin i).val >>> 4) NUL))
        ((i <<< 1) + 1) (trans.getD ((bin i).val &&& 0xf) NUL)) t (by omega)
      have e : i + 1 + t = i + (t + 1) := by omega
      rw [e] at this
      exact this

/-- C8. For every byte sequence `bin` of length `n`, `binary_to_hex` writes at
positions `2i` and `2i+1` (for `i < n`) the uppercase hexadecimal digits of the
high and low nibble of `bin[i]`, writes `NUL` at position `2n`, and touches
nothing beyond; every character written before the `NUL` is in `0-9A-F`; the
first `2n+1` characters depend only on the first `n` bytes of `bin`; so the
fingerprint `ssl_get_fingerprint` returns for a 32-byte digest is a string of
exactly 64 such characters, and without a peer certificate the result is
`NULL`. -/
theorem binary_to_hex_spec (bin : Nat → UChar) (hex : Buf) (n : Nat) :
    (∀ i, i < n →
        binary_to_hex bin hex n (2 * i) = upperHexDigit ((bin i).val / 16) ∧
        binary_to_hex bin hex n (2 * i + 1) = upperHexDigit ((bin i).val % 16)) ∧
    binary_to_hex bin hex n (2 * n) = NUL ∧
    (∀ j, 2 * n < j → binary_to_hex bin hex n j = hex j) ∧
    (∀ j, j < 2 * n →
        isUpperHex (binary_to_hex bin hex n j) = true ∧ binary_to_hex bin hex n j ≠ NUL) ∧
    (∀ (bin2 : Nat → UChar) (hex2 : Buf), (∀ i, i < n → bin2 i = bin i) →
        ∀ j, j ≤ 2 * n → binary_to_hex bin2 hex2 n j = binary_to_hex bin hex n j) ∧
    (∀ (c : Nat) (digest : Nat → Option ((Nat → UChar) × Nat)), digest c = some (bin, 32) →
        ∃ out, ssl_get_fingerprint hex (some c) digest = some out ∧
          out = binary_to_hex bin hex 32 ∧
          (∀ j, j < 64 → isUpperHex (out j) = true ∧ out j ≠ NUL) ∧ out 64 = NUL) ∧
    (∀ (digest : Nat → Option ((Nat → UChar) × Nat)),
        ssl_get_fingerprint hex none digest = none) := by
  have key : ∀ (b : Nat → UChar) (h : Buf) (m : Nat),
      (∀ i, i < m →
        binary_to_hex b h m (2 * i) = upperHexDigit ((b i).val / 16) ∧
        binary_to_hex b h m (2 * i + 1) = upperHexDigit ((b i).val % 16)) ∧
      binary_to_hex b h m (2 * m) = NUL := by
    intro b h m
    have e : (m : Int).toNat <<< 1 = 2 * m := by
      rw [Int.toNat_ofNat, Nat.shiftLeft_eq]; omega
    refine ⟨fun i hi => ?_, ?_⟩
    · have hl := binary_to_hex_loop_inside b m 0 h i hi
      simp only [Nat.zero_add] at hl
      unfold binary_to_hex
      rw [e, Function.update_noteq (by omega), Function.update_noteq (by omega),
          Int.toNat_ofNat, hl.1, hl.2, trans_high_nibble, trans_low_nibble]
      exact ⟨rfl, rfl⟩
    · unfold binary_to_hex
      rw [e]; simp
  have hexchars : ∀ (b : Nat → UChar) (h : Buf) (m : Nat) (j : Nat), j < 2 * m →
      isUpperHex (binary_to_hex b h m j) = true ∧ binary_to_hex b h m j ≠ NUL := by
    intro b h m j hj
    have hi : j / 2 < m := by omega
    have hk := (key b h m).1 (j / 2) hi
    have hb : (b (j / 2)).val < 256 := (b (j / 2)).isLt
    rcases Nat.mod_two_eq_zero_or_one j with h0 | h1
    · have ej : j = 2 * (j / 2) := by omega
      rw [ej, hk.1]
      exact ⟨upperHexDigit_isUpperHex _ (by omega), upperHexDigit_ne_NUL _ (by omega)⟩
    · have ej : j = 2 * (j / 2) + 1 := by omega
      rw [ej, hk.2]
      exact ⟨upperHexDigit_isUpperHex _ (by omega), upperHexDigit_ne_NUL _ (by omega)⟩
  refine ⟨(key bin hex n).1, (key bin hex n).2, ?_, hexchars bin hex n, ?_, ?_, ?_⟩
  · intro j hj
    have e : (n : Int).toNat <<< 1 = 2 * n := by
      rw [Int.toNat_ofNat, Nat.shiftLeft_eq]; omega
    unfold binary_to_hex
    rw [e, Function.update_noteq (by omega), Int.toNat_ofNat]
    exact binary_to_hex_loop_outside bin n 0 hex j (by omega)
  · intro bin2 hex2 hb j hj
    rcases Nat.lt_or_ge j (2 * n) with hlt | hge
    · have hi : j / 2 < n := by omega
      have h1 := (key bin hex n).1 (j / 2) hi
      have h2 := (key bin2 hex2 n).1 (j / 2) hi
      rw [hb _ hi] at h2
      rcases Nat.mod_two_eq_zero_or_one j with h0 | h1'
      · have ej : j = 2 * (j / 2) := by omega
        rw [ej, h1.1, h2.1]
      · have ej : j = 2 * (j / 2) + 1 := by omega
        rw [ej, h1.2, h2.2]
    · have ej : j = 2 * n := by omega
      rw [ej, (key bin hex n).2, (key bin2 hex2 n).2]
  · intro c digest hd
    refine ⟨binary_to_hex bin hex 32, ?_, rfl, ?_, ?_⟩
    · simp [ssl_get_fingerprint, hd]
    · intro j hj
      exact hexchars bin hex 32 j (by omega)
    · exact (key bin hex 32).2
  · intro digest
    rfl

/-! ### `ssl_reinit` -/

/-- C1, as stated, fails: when the server build succeeds and the client build
fails, `ssl_reinit` returns -1 although the previous server context has been
freed and `ssl_server_ctx` replaced. -/
theorem reinit_client_failure_replaces_server :
    ¬ ((ssl_reinit ⟨some 1, some 2⟩ ⟨some 10, 1, 1⟩ ⟨some 11, 1, 1⟩ ⟨some 12, 0, 1⟩
          ⟨some 13, 1, 1⟩).ret = -1 →
        (ssl_reinit ⟨some 1, some 2⟩ ⟨some 10, 1, 1⟩ ⟨some 11, 1, 1⟩ ⟨some 12, 0, 1⟩
          ⟨some 13, 1, 1⟩).globals = ⟨some 1, some 2⟩ ∧
        Call.SSL_CTX_free (some 1) ∉
          (ssl_reinit ⟨some 1, some 2⟩ ⟨some 10, 1, 1⟩ ⟨some 11, 1, 1⟩ ⟨some 12, 0, 1⟩
            ⟨some 13, 1, 1⟩).calls) := by
  decide

/-- C1, amended. A call of `ssl_reinit` that returns -1 is of one of two kinds.
Either the first server build failed: then both globals are as before and
`ssl_reinit` freed nothing.  Or the first server build succeeded and the first
client build failed: then `ssl_client_ctx` is as before and was not freed,
while `ssl_reinit` freed the trial context and the previous server context and
`ssl_server_ctx` holds the result of the second server build. -/
theorem ssl_reinit_failure (g : Globals) (s1 s2 c1 c2 : CtxBuild)
    (h : (ssl_reinit g s1 s2 c1 c2).ret = -1) :
    (ssl_init_server_ctx s1 = none ∧
      (ssl_reinit g s1 s2 c1 c2).globals = g ∧
      (ssl_reinit g s1 s2 c1 c2).calls = [Call.ssl_init_server_ctx]) ∨
    (∃ temp, ssl_init_server_ctx s1 = some temp ∧ ssl_init_client_ctx c1 = none ∧
      (ssl_reinit g s1 s2 c1 c2).globals.ssl_client_ctx = g.ssl_client_ctx ∧
      (ssl_reinit g s1 s2 c1 c2).globals.ssl_server_ctx = ssl_init_server_ctx s2 ∧
      (ssl_reinit g s1 s2 c1 c2).calls =
        [Call.ssl_init_server_ctx, Call.SSL_CTX_free (some temp),
         Call.SSL_CTX_free g.ssl_server_ctx, Call.ssl_init_server_ctx,
         Call.ssl_init_client_ctx]) := by
  unfold ssl_reinit at h ⊢
  cases hs : ssl_init_server_ctx s1 with
  | none => left; simp
  | some temp =>
    right
    cases hc : ssl_init_client_ctx c1 with
    | none => exact ⟨temp, by simp⟩
    | some temp2 => simp [hs, hc] at h

/-- The amended C1 at a failing server build. -/
theorem ssl_reinit_failure_witness :
    (ssl_init_server_ctx ⟨none, 1, 1⟩ = none ∧
      (ssl_reinit ⟨some 1, some 2⟩ ⟨none, 1, 1⟩ ⟨some 11, 1, 1⟩ ⟨some 12, 1, 1⟩
        ⟨some 13, 1, 1⟩).globals = ⟨some 1, some 2⟩ ∧
      (ssl_reinit ⟨some 1, some 2⟩ ⟨none, 1, 1⟩ ⟨some 11, 1, 1⟩ ⟨some 12, 1, 1⟩
        ⟨some 13, 1, 1⟩).calls = [Call.ssl_init_server_ctx]) ∨
    (∃ temp, ssl_init_server_ctx ⟨none, 1, 1⟩ = some temp ∧
      ssl_init_client_ctx ⟨some 12, 1, 1⟩ = none ∧
      (ssl_reinit ⟨some 1, some 2⟩ ⟨none, 1, 1⟩ ⟨some 11, 1, 1⟩ ⟨some 12, 1, 1⟩
        ⟨some 13, 1, 1⟩).globals.ssl_client_ctx = some 2 ∧
      (ssl_reinit ⟨some 1, some 2⟩ ⟨none, 1, 1⟩ ⟨some 11, 1, 1⟩ ⟨some 12, 1, 1⟩
        ⟨some 13, 1, 1⟩).globals.ssl_server_ctx = ssl_init_server_ctx ⟨some 11, 1, 1⟩ ∧
      (ssl_reinit ⟨some 1, some 2⟩ ⟨none, 1, 1⟩ ⟨some 11, 1, 1⟩ ⟨some 12, 1, 1⟩
        ⟨some 13, 1, 1⟩).calls =
        [Call.ssl_init_server_ctx, Call.SSL_CTX_free (some temp),
         Call.SSL_CTX_free (some 1), Call.ssl_init_server_ctx,
         Call.ssl_init_client_ctx]) :=
  ssl_reinit_failure ⟨some 1, some 2⟩ ⟨none, 1, 1⟩ ⟨some 11, 1, 1⟩ ⟨some 12, 1, 1⟩
    ⟨some 13, 1, 1⟩ (by decide)

/-! ### `ssl_connect` -/

/-- C9. `ssl_connect` returns 1, 0 or -1: 1 exactly when `SSL_connect` returned
a positive value, 0 exactly when it returned `<= 0` with `SSL_ERROR_WANT_READ`
or `SSL_ERROR_WANT_WRITE`, -1 exactly in every other case.  `SSL_new` is called
exactly when the socket has no session; a socket that has one keeps it and
only `SSL_connect` is called on it, so a further call on the socket left by a
call drives the same session. -/
theorem ssl_connect_spec (ctx : CTXp) (sock : Socket) (new_ssl : SSLp) (r : Int)
    (err : SslError) :
    ((ssl_connect ctx sock new_ssl r err).ret = 1 ∨
      (ssl_connect ctx sock new_ssl r err).ret = 0 ∨
      (ssl_connect ctx sock new_ssl r err).ret = -1) ∧
    ((ssl_connect ctx sock new_ssl r err).ret = 1 ↔ 0 < r) ∧
    ((ssl_connect ctx sock new_ssl r err).ret = 0 ↔
      (r ≤ 0 ∧ (err = SslError.SSL_ERROR_WANT_READ ∨ err = SslError.SSL_ERROR_WANT_WRITE))) ∧
    ((ssl_connect ctx sock new_ssl r err).ret = -1 ↔
      (r ≤ 0 ∧ err ≠ SslError.SSL_ERROR_WANT_READ ∧ err ≠ SslError.SSL_ERROR_WANT_WRITE)) ∧
    (Call.SSL_new ctx ∈ (ssl_connect ctx sock new_ssl r err).calls ↔ sock.ssl = none) ∧
    (sock.ssl = none →
      (ssl_connect ctx sock new_ssl r err).sock = { sock with ssl := new_ssl } ∧
      (ssl_connect ctx sock new_ssl r err).calls =
        [Call.SSL_new ctx, Call.SSL_set_fd new_ssl sock.s_fd, Call.SSL_connect new_ssl]) ∧
    (∀ s, sock.ssl = some s →
      (ssl_connect ctx sock new_ssl r err).sock = sock ∧
      (ssl_connect ctx sock new_ssl r err).calls = [Call.SSL_connect (some s)]) ∧
    (∀ (s : Nat) (new2 : SSLp) (r2 : Int) (err2 : SslError),
      (ssl_connect ctx sock new_ssl r err).sock.ssl = some s →
      (ssl_connect ctx (ssl_connect ctx sock new_ssl r err).sock new2 r2 err2).sock.ssl = some s ∧
      (ssl_connect ctx (ssl_connect ctx sock new_ssl r err).sock new2 r2 err2).calls
        = [Call.SSL_connect (some s)]) := by
  have shape : ∀ (sk : Socket) (n : SSLp) (q : Int) (e : SslError) (s : Nat),
      sk.ssl = some s →
      (ssl_connect ctx sk n q e).sock = sk ∧
      (ssl_connect ctx sk n q e).calls = [Call.SSL_connect (some s)] := by
    intro sk n q e s hs
    unfold ssl_connect
    split_ifs <;> simp [hs]
  refine ⟨?_, ?_, ?_, ?_, ?_, ?_, shape sock new_ssl r err, ?_⟩
  · unfold ssl_connect; split_ifs <;> simp
  · unfold ssl_connect; split_ifs <;> simp <;> omega
  · unfold ssl_connect; split_ifs with h1 h2 <;> simp <;> tauto
  · unfold ssl_connect; split_ifs with h1 h2 <;> simp <;> first | omega | tauto
  · unfold ssl_connect
    cases hs : sock.ssl <;> split_ifs <;> simp
  · intro hs
    unfold ssl_connect
    split_ifs <;> simp [hs]
  · intro s new2 r2 err2 hs
    have := shape (ssl_connect ctx sock new_ssl r err).sock new2 r2 err2 s hs
    rw [this.1]
    exact ⟨hs, this.2⟩

/-! ### `ssl_accept` -/

theorem ssl_accept_of_error_queued (data : ssl_data) (o : AcceptOutcome)
    (h1 : o.accept_ret ≤ 0) (h2 : o.err ≠ 0) :
    ssl_accept data o =
      [Call.SSL_accept data.ssl, Call.write data.fd "ERROR :SSL connection error\r\n" 29,
       Call.SSL_free data.ssl, Call.close data.fd, Call.socket_del] := by
  have e : error_ssl.length = 29 := by decide
  unfold ssl_accept
  rw [if_pos h1, if_pos h2, e]
  rfl

theorem ssl_accept_of_empty_queue (data : ssl_data) (o : AcceptOutcome)
    (h1 : o.accept_ret ≤ 0) (h2 : o.err = 0) :
    ssl_accept data o = [Call.SSL_accept data.ssl] := by
  unfold ssl_accept
  rw [if_pos h1, if_neg (by simp [h2])]

theorem ssl_accept_of_unfinished (data : ssl_data) (o : AcceptOutcome)
    (h1 : 0 < o.accept_ret) (h2 : o.init_finished = false) :
    ssl_accept data o = [Call.SSL_accept data.ssl] := by
  unfold ssl_accept
  rw [if_neg (by omega), if_neg (by simp [h2])]

theorem ssl_accept_of_finished (data : ssl_data) (o : AcceptOutcome)
    (h1 : 0 < o.accept_ret) (h2 : o.init_finished = true) :
    ssl_accept data o =
      [Call.SSL_accept data.ssl, Call.socket_del,
       Call.add_connection data.listener data.fd data.ssl] := by
  unfold ssl_accept
  rw [if_neg (by omega), if_pos h2]

/-- C2, at the failing input: with `SSL_ERROR_SYSCALL`, a negative result and
`errno = EAGAIN` (11 on Linux, also `EWOULDBLOCK`), `ssl_recv` returns
`IO_FAILURE`, while `ssl_sendv` on one range reports the same outcome as
`IO_BLOCKED`. -/
theorem ssl_recv_eagain_is_failure :
    (ssl_recv linuxErrno (some 1) 512 (-1) SslError.SSL_ERROR_SYSCALL 11).ret
      = IOResult.IO_FAILURE ∧
    (ssl_sendv linuxErrno (some 1) [512] 512
      (single (-1) SslError.SSL_ERROR_SYSCALL 11)).ret = IOResult.IO_BLOCKED := by
  decide

/-- C5, as stated, fails: for `SSL_ERROR_WANT_CONNECT`, a code neither function
names, `ssl_recv` returns `IO_FAILURE` and `ssl_sendv` on a single range
returns `IO_BLOCKED`. -/
theorem classification_differs_on_unnamed_code :
    ¬ ((ssl_recv linuxErrno (some 1) 512 (-1) SslError.SSL_ERROR_WANT_CONNECT 0).ret =
       (ssl_sendv linuxErrno (some 1) [512] 512
         (single (-1) SslError.SSL_ERROR_WANT_CONNECT 0)).ret) := by
  decide

/-- C5, amended. On a single-range queue `ssl_recv` and `ssl_sendv` return the
same `IOResult` for each of the codes `SSL_ERROR_NONE`, `SSL_ERROR_SSL`,
`SSL_ERROR_WANT_READ`, `SSL_ERROR_WANT_WRITE`, `SSL_ERROR_WANT_X509_LOOKUP` and
`SSL_ERROR_ZERO_RETURN`, and for `SSL_ERROR_SYSCALL` whenever the result is not
negative, or `errno` is `EINTR`, or `errno` is none of `EWOULDBLOCK`, `EBUSY`,
`EAGAIN`.  For every code that neither function names, `ssl_recv` returns
`IO_FAILURE` and `ssl_sendv` returns `IO_BLOCKED`. -/
theorem classification_agreement (E : ErrnoCodes) (ssl : SSLp)
    (length len : Nat) (res : Int) (err : SslError) (errno : Int) :
    ((err = SslError.SSL_ERROR_NONE ∨ err = SslError.SSL_ERROR_SSL ∨
      err = SslError.SSL_ERROR_WANT_READ ∨ err = SslError.SSL_ERROR_WANT_WRITE ∨
      err = SslError.SSL_ERROR_WANT_X509_LOOKUP ∨ err = SslError.SSL_ERROR_ZERO_RETURN ∨
      (err = SslError.SSL_ERROR_SYSCALL ∧
        (0 ≤ res ∨ errno = E.EINTR ∨
          (errno ≠ E.EWOULDBLOCK ∧ errno ≠ E.EBUSY ∧ errno ≠ E.EAGAIN)))) →
      (ssl_recv E ssl length res err errno).ret =
        (ssl_sendv E ssl [len] len (single res err errno)).ret) ∧
    ((err = SslError.SSL_ERROR_WANT_CONNECT ∨ err = SslError.SSL_ERROR_WANT_ACCEPT ∨
      ∃ code, err = SslError.OTHER code) →
      (ssl_recv E ssl length res err errno).ret = IOResult.IO_FAILURE ∧
      (ssl_sendv E ssl [len] len (single res err errno)).ret = IOResult.IO_BLOCKED) := by
  constructor
  · rintro (h | h | h | h | h | h | ⟨h, hs⟩) <;> subst h
    all_goals simp [ssl_recv, ssl_sendv, ssl_sendv_loop, single]
    by_cases hr : res < 0
    · rcases hs with hs | hs | ⟨h1, h2, h3⟩
      · omega
      · simp [hr, hs]
      · by_cases hi : errno = E.EINTR
        · simp [hr, hi]
        · simp [hr, hi, h1, h2, h3]
    · simp [hr]
  · rintro (h | h | ⟨code, h⟩) <;> subst h <;>
      simp [ssl_recv, ssl_sendv, ssl_sendv_loop, single]

/-! ### `ssl_sendv`: the loop -/

theorem toUnsigned_natCast (n : Nat) : toUnsigned (n : Int) = n % 2 ^ 32 := by
  unfold toUnsigned
  omega

theorem writesOf_append (ssl : SSLp) (xs : List Nat) :
    ∀ (k : Nat) (ys : List Nat),
      writesOf ssl k (xs ++ ys) = writesOf ssl k xs ++ writesOf ssl (k + xs.length) ys := by
  induction xs with
  | nil => intro k ys; simp [writesOf]
  | cons x xs ih =>
    intro k ys
    have e : k + 1 + xs.length = k + (x :: xs).length := by
      simp only [List.length_cons]; omega
    show Call.SSL_write ssl k x :: writesOf ssl (k + 1) (xs ++ ys) =
      Call.SSL_write ssl k x :: writesOf ssl (k + 1) xs ++ writesOf ssl (k + (x :: xs).length) ys
    rw [ih, e]
    rfl

/-- Every call in `writesOf ssl k lens` is an `SSL_write` on a range from `k`
up to `k + lens.length - 1`. -/
theorem mem_writesOf (ssl : SSLp) (lens : List Nat) :
    ∀ (k : Nat) (c : Call), c ∈ writesOf ssl k lens →
      ∃ j len, c = Call.SSL_write ssl j len ∧ k ≤ j ∧ j < k + lens.length := by
  induction lens with
  | nil => intro k c hc; simp [writesOf] at hc
  | cons x xs ih =>
    intro k c hc
    simp only [writesOf, List.mem_cons] at hc
    rcases hc with hc | hc
    · exact ⟨k, x, hc, by omega, by simp⟩
    · obtain ⟨j, len, h1, h2, h3⟩ := ih (k + 1) c hc
      exact ⟨j, len, h1, by omega, by simp only [List.length_cons]; omega⟩

/-- While `SSL_write` reports `SSL_ERROR_NONE` on the ranges `pre`, the loop
goes on to the ranges after them with `retval = IO_SUCCESS`, having called
`SSL_write` once on each; the byte count stays below `2^32`, and when every
write returned its range's length it is the sum of the lengths modulo
`2^32`. -/
theorem ssl_sendv_loop_run (E : ErrnoCodes) (ssl : SSLp) (o : Nat → WriteOutcome)
    (pre : List Nat) :
    ∀ (rest : List Nat) (k : Nat) (retval : IOResult) (cnt : Nat) (calls : List Call),
      (∀ j, j < pre.length → (o (k + j)).err = SslError.SSL_ERROR_NONE) →
      ∃ cnt',
        ssl_sendv_loop E ssl o (pre ++ rest) k retval cnt calls =
          ssl_sendv_loop E ssl o rest (k + pre.length)
            (if pre = [] then retval else IOResult.IO_SUCCESS) cnt'
            (calls ++ writesOf ssl k pre) ∧
        (cnt < 2 ^ 32 → cnt' < 2 ^ 32) ∧
        ((∀ j, j < pre.length → (o (k + j)).res = ((pre.getD j 0 : Nat) : Int)) →
          cnt' % 2 ^ 32 = (cnt + pre.sum) % 2 ^ 32) := by
  induction pre with
  | nil =>
    intro rest k retval cnt calls _
    exact ⟨cnt, by simp [writesOf], fun h => h, fun _ => by simp⟩
  | cons p pre ih =>
    intro rest k retval cnt calls hok
    have h0 : (o k).err = SslError.SSL_ERROR_NONE := by
      have := hok 0 (by simp)
      simpa using this
    have hok' : ∀ j, j < pre.length → (o (k + 1 + j)).err = SslError.SSL_ERROR_NONE := by
      intro j hj
      have := hok (j + 1) (by simp only [List.length_cons]; omega)
      have e : k + 1 + j = k + (j + 1) := by omega
      rw [e]; exact this
    obtain ⟨cnt', hrun, hlt, hsum⟩ :=
      ih rest (k + 1) IOResult.IO_SUCCESS ((cnt + toUnsigned (o k).res) % 2 ^ 32)
        (calls ++ [Call.SSL_write ssl k p]) hok'
    refine ⟨cnt', ?_, ?_, ?_⟩
    · conv_lhs => rw [List.cons_append, ssl_sendv_loop]
      simp only [h0]
      rw [hrun]
      have e : k + 1 + pre.length = k + (p :: pre).length := by
        simp only [List.length_cons]; omega
      simp [writesOf, e]
    · intro _
      exact hlt (Nat.mod_lt _ (by norm_num))
    · intro hres
      have hr0 : (o k).res = (p : Int) := by
        have := hres 0 (by simp)
        simpa using this
      have hres' : ∀ j, j < pre.length → (o (k + 1 + j)).res = ((pre.getD j 0 : Nat) : Int) := by
        intro j hj
        have := hres (j + 1) (by simp only [List.length_cons]; omega)
        have e : k + 1 + j = k + (j + 1) := by omega
        rw [e]; simpa using this
      have := hsum hres'
      rw [hr0, toUnsigned_natCast] at this
      rw [this, List.sum_cons]
      omega

/-- C3. When `SSL_write` succeeds in full on the first `M` of the mapped
ranges (`SSL_ERROR_NONE`, returning the range's length) and reports
`SSL_ERROR_WANT_READ` or `SSL_ERROR_WANT_WRITE` on the next one, `ssl_sendv`
returns `IO_SUCCESS` (or `IO_BLOCKED` when `M = 0`), never `IO_FAILURE`;
`SSL_write` was called once on each of the ranges `0..M` and on no later range;
`*count_out` is the sum of the sizes of the first `M` ranges as a 32-bit
unsigned, which is that sum itself whenever the sum fits 32 bits. -/
theorem ssl_sendv_blocked_after_successes (E : ErrnoCodes) (ssl : SSLp)
    (iov : List Nat) (count_in : Nat) (o : Nat → WriteOutcome) (M : Nat)
    (hM : M < iov.length)
    (hok : ∀ k, k < M → (o k).err = SslError.SSL_ERROR_NONE ∧
      (o k).res = ((iov.getD k 0 : Nat) : Int))
    (hblk : (o M).err = SslError.SSL_ERROR_WANT_READ ∨
      (o M).err = SslError.SSL_ERROR_WANT_WRITE) :
    (ssl_sendv E ssl iov count_in o).count_out
      = (iov.take M).sum % 2 ^ 32 ∧
    ((iov.take M).sum < 2 ^ 32 →
      (ssl_sendv E ssl iov count_in o).count_out = (iov.take M).sum) ∧
    (ssl_sendv E ssl iov count_in o).ret ≠ IOResult.IO_FAILURE ∧
    (ssl_sendv E ssl iov count_in o).ret
      = (if M = 0 then IOResult.IO_BLOCKED else IOResult.IO_SUCCESS) ∧
    (ssl_sendv E ssl iov count_in o).calls
      = Call.msgq_mapiov :: writesOf ssl 0 (iov.take (M + 1)) ∧
    (∀ k len, Call.SSL_write ssl k len ∈ (ssl_sendv E ssl iov count_in o).calls → k ≤ M) := by
  have hsplit : iov = iov.take M ++ iov.drop M := (List.take_append_drop M iov).symm
  have hlen : (iov.take M).length = M := by simp; omega
  obtain ⟨len, rest, hdrop⟩ : ∃ len rest, iov.drop M = len :: rest := by
    cases hd : iov.drop M with
    | nil => simp at hd; omega
    | cons a b => exact ⟨a, b, rfl⟩
  have hpre : ∀ j, j < (iov.take M).length →
      (o (0 + j)).err = SslError.SSL_ERROR_NONE := by
    intro j hj; rw [Nat.zero_add]; exact (hok j (by omega)).1
  have hres : ∀ j, j < (iov.take M).length →
      (o (0 + j)).res = (((iov.take M).getD j 0 : Nat) : Int) := by
    intro j hj
    rw [Nat.zero_add, (hok j (by omega)).2]
    congr 1
    simp [List.getD, List.getElem?_take, show j < M by omega]
  obtain ⟨cnt', hrun, hlt, hsum⟩ :=
    ssl_sendv_loop_run E ssl o (iov.take M) (len :: rest) 0 IOResult.IO_BLOCKED 0
      [Call.msgq_mapiov] hpre
  have hcnt : cnt' = (iov.take M).sum % 2 ^ 32 := by
    have h1 := hsum hres
    have h2 := hlt (by norm_num)
    rw [Nat.zero_add] at h1
    rw [← h1]
    exact (Nat.mod_eq_of_lt h2).symm
  have hnil : (iov.take M = []) ↔ M = 0 := by
    constructor
    · intro h; rw [h] at hlen; simpa using hlen.symm
    · intro h; subst h; simp
  have htake : iov.take (M + 1) = iov.take M ++ [len] := by
    rw [List.take_succ]
    congr 1
    have : iov[M]? = some len := by
      have := congrArg List.head? hdrop
      simpa [List.head?_drop] using this
    simp [this]
  have hloop : ssl_sendv_loop E ssl o iov 0 IOResult.IO_BLOCKED 0 [Call.msgq_mapiov] =
      (if M = 0 then IOResult.IO_BLOCKED else IOResult.IO_SUCCESS, cnt',
        Call.msgq_mapiov :: writesOf ssl 0 (iov.take (M + 1))) := by
    conv_lhs => rw [hsplit, hdrop]
    rw [hrun, hlen, Nat.zero_add, htake, writesOf_append, hlen, Nat.zero_add]
    by_cases h0 : M = 0
    · subst h0
      rcases hblk with hb | hb <;> simp [ssl_sendv_loop, hb, writesOf]
    · have hn : ¬ (iov.take M = []) := fun h => h0 (hnil.1 h)
      rcases hblk with hb | hb <;> simp [ssl_sendv_loop, hb, hn, h0, writesOf]
  have hret : (ssl_sendv E ssl iov count_in o).ret
      = (if M = 0 then IOResult.IO_BLOCKED else IOResult.IO_SUCCESS) := by
    simp only [ssl_sendv, hloop]
  have hcalls : (ssl_sendv E ssl iov count_in o).calls
      = Call.msgq_mapiov :: writesOf ssl 0 (iov.take (M + 1)) := by
    simp only [ssl_sendv, hloop]
  have hco : (ssl_sendv E ssl iov count_in o).count_out = (iov.take M).sum % 2 ^ 32 := by
    simp only [ssl_sendv, hloop, hcnt]
  refine ⟨hco, ?_, ?_, hret, hcalls, ?_⟩
  · intro hfit
    rw [hco, Nat.mod_eq_of_lt hfit]
  · rw [hret]; split_ifs <;> decide
  · intro k l hk
    rw [hcalls] at hk
    simp only [List.mem_cons] at hk
    rcases hk with hk | hk
    · cases hk
    · obtain ⟨j, l', h1, _, h3⟩ := mem_writesOf ssl _ 0 _ hk
      have hl : (iov.take (M + 1)).length = M + 1 := by simp; omega
      injection h1 with _ hkj _
      omega

/-- C3 at the queue 10/20/30 with one successful write (`M = 1`). -/
theorem ssl_sendv_blocked_after_successes_witness :
    (ssl_sendv linuxErrno (some 1) [10, 20, 30] 60 tenThenBlock).count_out
      = ([10, 20, 30].take 1).sum % 2 ^ 32 ∧
    (([10, 20, 30].take 1).sum < 2 ^ 32 →
      (ssl_sendv linuxErrno (some 1) [10, 20, 30] 60 tenThenBlock).count_out
        = ([10, 20, 30].take 1).sum) ∧
    (ssl_sendv linuxErrno (some 1) [10, 20, 30] 60 tenThenBlock).ret ≠ IOResult.IO_FAILURE ∧
    (ssl_sendv linuxErrno (some 1) [10, 20, 30] 60 tenThenBlock).ret
      = (if 1 = 0 then IOResult.IO_BLOCKED else IOResult.IO_SUCCESS) ∧
    (ssl_sendv linuxErrno (some 1) [10, 20, 30] 60 tenThenBlock).calls
      = Call.msgq_mapiov :: writesOf (some 1) 0 ([10, 20, 30].take (1 + 1)) ∧
    (∀ k len, Call.SSL_write (some 1) k len ∈
      (ssl_sendv linuxErrno (some 1) [10, 20, 30] 60 tenThenBlock).calls → k ≤ 1) :=
  ssl_sendv_blocked_after_successes linuxErrno (some 1) [10, 20, 30] 60 tenThenBlock 1
    (by decide)
    (by intro k hk; obtain rfl : k = 0 := by omega
        decide)
    (by decide)

/-! ### `ssl_sendv`: the 10/20/30 scenario -/

/-- C4, as stated, fails: in the 10/20/30 scenario `ssl_sendv` does not return
`IO_BLOCKED`; it returns `IO_SUCCESS` with `*count_out = 10`. -/
theorem sendv_10_20_30_returns_success :
    ¬ ((ssl_sendv linuxErrno (some 1) [10, 20, 30] 60 tenThenBlock).count_out = 10 ∧
       (ssl_sendv linuxErrno (some 1) [10, 20, 30] 60 tenThenBlock).ret
         = IOResult.IO_BLOCKED) := by
  decide

/-- C4, amended. For the queue of three buffers of 10, 20 and 30 bytes, mapped
to three ranges, where `SSL_write` accepts the first (returns 10 with
`SSL_ERROR_NONE`) and reports `SSL_ERROR_WANT_READ` or `SSL_ERROR_WANT_WRITE`
on the second: `*count_out` is 10 and the status returned is `IO_SUCCESS`;
`SSL_write` was called once on the first range, once on the second (the call
that blocked) and not on the third; and the only call `ssl_sendv` made on the
queue is `msgq_mapiov`, so it removed nothing from it. -/
theorem ssl_sendv_scenario (E : ErrnoCodes) (ssl : SSLp) (count_in : Nat)
    (o : Nat → WriteOutcome)
    (h0 : (o 0).err = SslError.SSL_ERROR_NONE ∧ (o 0).res = 10)
    (h1 : (o 1).err = SslError.SSL_ERROR_WANT_READ ∨
      (o 1).err = SslError.SSL_ERROR_WANT_WRITE) :
    (ssl_sendv E ssl [10, 20, 30] count_in o).count_out = 10 ∧
    (ssl_sendv E ssl [10, 20, 30] count_in o).ret = IOResult.IO_SUCCESS ∧
    (ssl_sendv E ssl [10, 20, 30] count_in o).calls
      = [Call.msgq_mapiov, Call.SSL_write ssl 0 10, Call.SSL_write ssl 1 20] := by
  have hu : toUnsigned 10 = 10 := by decide
  rcases h1 with h1 | h1 <;>
    simp [ssl_sendv, ssl_sendv_loop, h0.1, h0.2, h1, hu]

/-- The amended C4 on Linux with session handle 1. -/
theorem ssl_sendv_scenario_witness :
    (ssl_sendv linuxErrno (some 1) [10, 20, 30] 60 tenThenBlock).count_out = 10 ∧
    (ssl_sendv linuxErrno (some 1) [10, 20, 30] 60 tenThenBlock).ret = IOResult.IO_SUCCESS ∧
    (ssl_sendv linuxErrno (some 1) [10, 20, 30] 60 tenThenBlock).calls
      = [Call.msgq_mapiov, Call.SSL_write (some 1) 0 10, Call.SSL_write (some 1) 1 20] :=
  ssl_sendv_scenario linuxErrno (some 1) 60 tenThenBlock (by decide) (by decide)

/-! ### Peer clean shutdown -/

/-- When `SSL_write` reports `SSL_ERROR_NONE` on the ranges before `M`, the loop
of `ssl_sendv` reaches range `M` having called `SSL_write` once on each earlier
range. -/
theorem ssl_sendv_reaches (E : ErrnoCodes) (ssl : SSLp) (o : Nat → WriteOutcome)
    (iov : List Nat) (M : Nat) (hM : M < iov.length)
    (hok : ∀ k, k < M → (o k).err = SslError.SSL_ERROR_NONE) :
    ∃ cnt' len rest,
      iov.take (M + 1) = iov.take M ++ [len] ∧
      ssl_sendv_loop E ssl o iov 0 IOResult.IO_BLOCKED 0 [Call.msgq_mapiov] =
        ssl_sendv_loop E ssl o (len :: rest) M
          (if M = 0 then IOResult.IO_BLOCKED else IOResult.IO_SUCCESS) cnt'
          (Call.msgq_mapiov :: writesOf ssl 0 (iov.take M)) := by
  have hsplit : iov = iov.take M ++ iov.drop M := (List.take_append_drop M iov).symm
  have hlen : (iov.take M).length = M := by simp; omega
  obtain ⟨len, rest, hdrop⟩ : ∃ len rest, iov.drop M = len :: rest := by
    cases hd : iov.drop M with
    | nil => simp at hd; omega
    | cons a b => exact ⟨a, b, rfl⟩
  have hpre : ∀ j, j < (iov.take M).length →
      (o (0 + j)).err = SslError.SSL_ERROR_NONE := by
    intro j hj; rw [Nat.zero_add]; exact hok j (by omega)
  obtain ⟨cnt', hrun, _, _⟩ :=
    ssl_sendv_loop_run E ssl o (iov.take M) (len :: rest) 0 IOResult.IO_BLOCKED 0
      [Call.msgq_mapiov] hpre
  have htake : iov.take (M + 1) = iov.take M ++ [len] := by
    rw [List.take_succ]
    congr 1
    have : iov[M]? = some len := by
      have := congrArg List.head? hdrop
      simpa [List.head?_drop] using this
    simp [this]
  have hnil : (iov.take M = []) ↔ M = 0 := by
    constructor
    · intro h; rw [h] at hlen; simpa using hlen.symm
    · intro h; subst h; simp
  refine ⟨cnt', len, rest, htake, ?_⟩
  conv_lhs => rw [hsplit, hdrop]
  rw [hrun, hlen, Nat.zero_add]
  by_cases h0 : M = 0
  · subst h0; simp
  · have hn : ¬ (iov.take M = []) := fun h => h0 (hnil.1 h)
    simp [hn, h0]

theorem count_shutdown_writesOf (ssl s : SSLp) (k : Nat) (lens : List Nat) :
    List.count (Call.SSL_shutdown s) (writesOf ssl k lens) = 0 := by
  rw [List.count_eq_zero]
  intro hmem
  obtain ⟨j, len, h, _, _⟩ := mem_writesOf ssl lens k _ hmem
  cases h

/-- C6. On `SSL_ERROR_ZERO_RETURN`, `ssl_recv` calls `SSL_read` and then
`SSL_shutdown` on the session, exactly once, and returns `IO_FAILURE`; and
`ssl_sendv`, at whichever range `M` the code is reported after successful
writes on the ranges before it, calls `SSL_shutdown` on the session exactly
once, as its last call, and returns `IO_FAILURE`.  Neither function calls
`SSL_free` or `close`. -/
theorem zero_return_shutdown (E : ErrnoCodes) (ssl : SSLp) (length : Nat)
    (res errno : Int) (iov : List Nat) (count_in : Nat) (o : Nat → WriteOutcome) (M : Nat)
    (hM : M < iov.length)
    (hok : ∀ k, k < M → (o k).err = SslError.SSL_ERROR_NONE)
    (hz : (o M).err = SslError.SSL_ERROR_ZERO_RETURN) :
    (ssl_recv E ssl length res SslError.SSL_ERROR_ZERO_RETURN errno).ret
      = IOResult.IO_FAILURE ∧
    (ssl_recv E ssl length res SslError.SSL_ERROR_ZERO_RETURN errno).calls
      = [Call.SSL_read ssl length, Call.SSL_shutdown ssl] ∧
    (ssl_sendv E ssl iov count_in o).ret = IOResult.IO_FAILURE ∧
    (ssl_sendv E ssl iov count_in o).calls
      = Call.msgq_mapiov :: writesOf ssl 0 (iov.take (M + 1))
          ++ [Call.SSL_shutdown ssl] ∧
    List.count (Call.SSL_shutdown ssl) (ssl_sendv E ssl iov count_in o).calls = 1 ∧
    (∀ c ∈ (ssl_sendv E ssl iov count_in o).calls,
      ∀ (s : SSLp) (fd : Int), c ≠ Call.SSL_free s ∧ c ≠ Call.close fd) := by
  obtain ⟨cnt', len, rest, htake, hloop⟩ :=
    ssl_sendv_reaches E ssl o iov M hM hok
  have hstop : ssl_sendv_loop E ssl o iov 0 IOResult.IO_BLOCKED 0
      [Call.msgq_mapiov] =
      (IOResult.IO_FAILURE, cnt',
        Call.msgq_mapiov :: writesOf ssl 0 (iov.take (M + 1))
          ++ [Call.SSL_shutdown ssl]) := by
    have hlen : (iov.take M).length = M := by simp; omega
    rw [hloop, htake, writesOf_append, hlen, Nat.zero_add]
    simp [ssl_sendv_loop, hz, writesOf]
  have hcalls : (ssl_sendv E ssl iov count_in o).calls
      = Call.msgq_mapiov :: writesOf ssl 0 (iov.take (M + 1))
          ++ [Call.SSL_shutdown ssl] := by
    simp only [ssl_sendv, hstop]
  refine ⟨rfl, rfl, ?_, hcalls, ?_, ?_⟩
  · simp only [ssl_sendv, hstop]
  · rw [hcalls]
    simp [List.count_cons, List.count_append, count_shutdown_writesOf]
  · intro c hc s fd
    rw [hcalls] at hc
    simp only [List.cons_append, List.mem_cons, List.mem_append, List.not_mem_nil,
      or_false] at hc
    rcases hc with hc | hc | hc
    · subst hc; exact ⟨by simp, by simp⟩
    · obtain ⟨j, l, h, _, _⟩ := mem_writesOf ssl _ 0 c hc
      subst h; exact ⟨by simp, by simp⟩
    · subst hc; exact ⟨by simp, by simp⟩

/-- C6 with the close-notify seen on the second of three ranges. -/
theorem zero_return_shutdown_witness :
    (ssl_recv linuxErrno (some 1) 512 0 SslError.SSL_ERROR_ZERO_RETURN 0).ret
      = IOResult.IO_FAILURE ∧
    (ssl_recv linuxErrno (some 1) 512 0 SslError.SSL_ERROR_ZERO_RETURN 0).calls
      = [Call.SSL_read (some 1) 512, Call.SSL_shutdown (some 1)] ∧
    (ssl_sendv linuxErrno (some 1) [10, 20, 30] 60 tenThenZeroReturn).ret
      = IOResult.IO_FAILURE ∧
    (ssl_sendv linuxErrno (some 1) [10, 20, 30] 60 tenThenZeroReturn).calls
      = Call.msgq_mapiov :: writesOf (some 1) 0 ([10, 20, 30].take (1 + 1))
          ++ [Call.SSL_shutdown (some 1)] ∧
    List.count (Call.SSL_shutdown (some 1))
      (ssl_sendv linuxErrno (some 1) [10, 20, 30] 60 tenThenZeroReturn).calls = 1 ∧
    (∀ c ∈ (ssl_sendv linuxErrno (some 1) [10, 20, 30] 60 tenThenZeroReturn).calls,
      ∀ (s : SSLp) (fd : Int), c ≠ Call.SSL_free s ∧ c ≠ Call.close fd) :=
  zero_return_shutdown linuxErrno (some 1) 512 0 0 [10, 20, 30] 60 tenThenZeroReturn 1
    (by decide)
    (by intro k hk; obtain rfl : k = 0 := by omega
        decide)
    (by decide)

/-! ### Transient conditions -/

/-- Transient conditions not reported as failures: `ssl_sendv` never reports a
transient condition
(`SSL_ERROR_WANT_READ`, `SSL_ERROR_WANT_WRITE`, or `SSL_ERROR_SYSCALL` with a
negative result and `errno` one of `EAGAIN`, `EWOULDBLOCK`, `EINTR`) as
`IO_FAILURE`, at whichever range it occurs; `ssl_recv` reports
`SSL_ERROR_WANT_READ`, `SSL_ERROR_WANT_WRITE` and an interrupted call as
`IO_BLOCKED`. -/
theorem transient_not_failure (E : ErrnoCodes) (ssl : SSLp) (length : Nat) (res errno : Int)
    (iov : List Nat) (count_in : Nat) (o : Nat → WriteOutcome) (M : Nat)
    (hM : M < iov.length)
    (hok : ∀ k, k < M → (o k).err = SslError.SSL_ERROR_NONE)
    (ht : (o M).err = SslError.SSL_ERROR_WANT_READ ∨
      (o M).err = SslError.SSL_ERROR_WANT_WRITE ∨
      ((o M).err = SslError.SSL_ERROR_SYSCALL ∧ (o M).res < 0 ∧
        ((o M).errno = E.EAGAIN ∨ (o M).errno = E.EWOULDBLOCK ∨ (o M).errno = E.EINTR))) :
    (ssl_sendv E ssl iov count_in o).ret
      = (if M = 0 then IOResult.IO_BLOCKED else IOResult.IO_SUCCESS) ∧
    (ssl_recv E ssl length res SslError.SSL_ERROR_WANT_READ errno).ret = IOResult.IO_BLOCKED ∧
    (ssl_recv E ssl length res SslError.SSL_ERROR_WANT_WRITE errno).ret = IOResult.IO_BLOCKED ∧
    (res < 0 →
      (ssl_recv E ssl length res SslError.SSL_ERROR_SYSCALL E.EINTR).ret
        = IOResult.IO_BLOCKED) := by
  obtain ⟨cnt', len, rest, _, hloop⟩ := ssl_sendv_reaches E ssl o iov M hM hok
  refine ⟨?_, rfl, rfl, ?_⟩
  · simp only [ssl_sendv, hloop]
    rcases ht with h | h | ⟨h, hr, he⟩
    · simp [ssl_sendv_loop, h]
    · simp [ssl_sendv_loop, h]
    · have hc : (o M).res < 0 ∧ ((o M).errno = E.EWOULDBLOCK ∨ (o M).errno = E.EINTR ∨
          (o M).errno = E.EBUSY ∨ (o M).errno = E.EAGAIN) := by
        refine ⟨hr, ?_⟩
        rcases he with he | he | he
        · exact Or.inr (Or.inr (Or.inr he))
        · exact Or.inl he
        · exact Or.inr (Or.inl he)
      simp only [ssl_sendv_loop, h, if_pos hc]
  · intro hr
    simp [ssl_recv, hr]


/-! ### The listener's reference count -/

theorem ssl_add_connection_started (r0 : Int) (listener : Nat) (fd : Int) (ctx : CTXp)
    (o : AddOutcome) (p : Pending) (hstart : o.started = true)
    (hp : (ssl_add_connection r0 listener fd ctx o).pending = some p) :
    ∃ s, p = { ref_count := r0 + 1,
               data := { listener := listener, fd := fd, ssl := some s },
               calls := [Call.os_set_nonblocking fd, Call.os_disable_options fd,
                         Call.MyMalloc, Call.socket_add fd, Call.SSL_new ctx,
                         Call.SSL_set_fd (some s) fd] } := by
  unfold AddOutcome.started at hstart
  simp only [Bool.and_eq_true] at hstart
  obtain ⟨⟨h1, h2⟩, h3⟩ := hstart
  cases hn : o.ssl_new with
  | none => simp [hn] at h3
  | some s =>
    refine ⟨s, ?_⟩
    simp [ssl_add_connection, AddResult.pending, h1, h2, hn] at hp
    exact hp.symm

theorem deliver_append (a : List Delivery) :
    ∀ (s : Pending) (b : List Delivery), deliver s (a ++ b) = deliver (deliver s a) b := by
  induction a with
  | nil => intro s b; rfl
  | cons d rest ih => intro s b; exact ih _ b

theorem engineDiscipline_append (a : List Delivery) :
    ∀ (s : Pending) (b : List Delivery),
      engineDiscipline s (a ++ b) = (engineDiscipline s a && engineDiscipline (deliver s a) b) := by
  induction a with
  | nil => intro s b; simp [engineDiscipline, deliver]
  | cons d rest ih =>
    intro s b
    have h := ih (ssl_sock_callback s d.1 d.2) b
    simp only [List.cons_append, engineDiscipline, deliver, Bool.and_assoc]
    rw [show rest.append b = rest ++ b from rfl, h]

theorem ssl_sock_callback_data (s : Pending) (ev : EventType) (o : AcceptOutcome) :
    (ssl_sock_callback s ev o).data = s.data := by
  cases ev <;> rfl

theorem deliver_data (evs : List Delivery) : ∀ s : Pending, (deliver s evs).data = s.data := by
  induction evs with
  | nil => intro s; rfl
  | cons d rest ih =>
    intro s
    simp only [deliver]
    rw [ih, ssl_sock_callback_data]

/-- The calls of one accept step never free the record, delete the socket at
most once, and call `add_connection` at most as often as `socket_del`. -/
theorem ssl_accept_counts (data : ssl_data) (o : AcceptOutcome) :
    List.count Call.MyFree (ssl_accept data o) = 0 ∧
    List.count Call.socket_del (ssl_accept data o) ≤ 1 ∧
    List.countP isAddConnection (ssl_accept data o)
      ≤ List.count Call.socket_del (ssl_accept data o) := by
  unfold ssl_accept
  split_ifs <;> simp [ssl_abort, isAddConnection]

/-- One delivery allowed by the engine's discipline keeps the invariant. -/
theorem refInv_step (r0 : Int) (t : Pending) (ev : EventType) (o : AcceptOutcome)
    (hinv : RefInv r0 t) (hfree : Call.MyFree ∉ t.calls)
    (hdel : Call.socket_del ∈ t.calls → ev = EventType.ET_DESTROY)
    (hnodel : Call.socket_del ∉ t.calls → ev ≠ EventType.ET_DESTROY) :
    RefInv r0 (ssl_sock_callback t ev o) := by
  obtain ⟨i1, i2, i3, i4⟩ := hinv
  have hf0 : List.count Call.MyFree t.calls = 0 := List.count_eq_zero.2 hfree
  by_cases hd : Call.socket_del ∈ t.calls
  · have hev := hdel hd
    subst hev
    unfold RefInv
    simp only [ssl_sock_callback, List.count_append, List.countP_append]
    simp [isAddConnection, hf0]
    refine ⟨hd, i2, ?_, i4⟩
    rw [i3, hf0]; simp
  · have hd0 : List.count Call.socket_del t.calls = 0 := List.count_eq_zero.2 hd
    have ha0 : List.countP isAddConnection t.calls = 0 := by omega
    have hne := hnodel hd
    obtain ⟨c1, c2, c3⟩ := ssl_accept_counts t.data o
    unfold RefInv
    cases ev with
    | ET_DESTROY => exact absurd rfl hne
    | ET_READ =>
      simp only [ssl_sock_callback, List.count_append, List.countP_append]
      refine ⟨by omega, by omega, ?_, by omega⟩
      rw [i3, hf0, c1]
    | ET_WRITE =>
      simp only [ssl_sock_callback, List.count_append, List.countP_append]
      refine ⟨by omega, by omega, ?_, by omega⟩
      rw [i3, hf0, c1]
    | ET_ERROR =>
      simp [ssl_sock_callback, ssl_abort, List.count_append, List.countP_append,
        isAddConnection, hf0, hd0, ha0, i3]
    | ET_EOF =>
      simp [ssl_sock_callback, ssl_abort, List.count_append, List.countP_append,
        isAddConnection, hf0, hd0, ha0, i3]
    | ET_ACCEPT => simp [ssl_sock_callback, hf0, hd0, ha0, i3]
    | ET_CONNECT => simp [ssl_sock_callback, hf0, hd0, ha0, i3]
    | ET_SIGNAL => simp [ssl_sock_callback, hf0, hd0, ha0, i3]
    | ET_EXPIRE => simp [ssl_sock_callback, hf0, hd0, ha0, i3]

/-- Every sequence of deliveries allowed by the engine's discipline keeps the
invariant. -/
theorem refInv_deliver (r0 : Int) (evs : List Delivery) :
    ∀ t : Pending, RefInv r0 t → engineDiscipline t evs = true →
      RefInv r0 (deliver t evs) := by
  induction evs with
  | nil => intro t h _; exact h
  | cons d rest ih =>
    intro t hinv hdisc
    simp only [engineDiscipline, Bool.and_eq_true] at hdisc
    obtain ⟨hhead, hrest⟩ := hdisc
    have hfree : Call.MyFree ∉ t.calls := by
      intro h; simp [h] at hhead
    have hdel : Call.socket_del ∈ t.calls → d.1 = EventType.ET_DESTROY := by
      intro h; simpa [hfree, h] using hhead
    have hnodel : Call.socket_del ∉ t.calls → d.1 ≠ EventType.ET_DESTROY := by
      intro h; simpa [hfree, h] using hhead
    exact ih _ (refInv_step r0 t d.1 d.2 hinv hfree hdel hnodel) hrest

/-- From a pending connection whose socket is still registered, an abort
(`ET_ERROR`, `ET_EOF`, or an accept step that fails with an error queued)
deletes the socket, and the `ET_DESTROY` that follows releases the listener's
reference. -/
theorem abort_then_destroy (r0 : Int) (t : Pending) (e : EventType) (o x : AcceptOutcome)
    (hinv : RefInv r0 t) (hd : Call.socket_del ∉ t.calls)
    (ha : e = EventType.ET_ERROR ∨ e = EventType.ET_EOF ∨
      ((e = EventType.ET_READ ∨ e = EventType.ET_WRITE) ∧ o.accept_ret ≤ 0 ∧ o.err ≠ 0)) :
    engineDiscipline t [(e, o), (EventType.ET_DESTROY, x)] = true ∧
    Call.socket_del ∈ (deliver t [(e, o)]).calls ∧
    (deliver t [(e, o)]).ref_count = r0 + 1 ∧
    (deliver t [(e, o), (EventType.ET_DESTROY, x)]).ref_count = r0 ∧
    List.count Call.socket_del (deliver t [(e, o), (EventType.ET_DESTROY, x)]).calls = 1 ∧
    List.count Call.MyFree (deliver t [(e, o), (EventType.ET_DESTROY, x)]).calls = 1 ∧
    List.countP isAddConnection
      (deliver t [(e, o), (EventType.ET_DESTROY, x)]).calls = 0 ∧
    Call.SSL_free t.data.ssl ∈ (deliver t [(e, o), (EventType.ET_DESTROY, x)]).calls ∧
    Call.close t.data.fd ∈ (deliver t [(e, o), (EventType.ET_DESTROY, x)]).calls := by
  obtain ⟨i1, i2, i3, i4⟩ := hinv
  have hd0 : List.count Call.socket_del t.calls = 0 := List.count_eq_zero.2 hd
  have hf0 : List.count Call.MyFree t.calls = 0 := by omega
  have ha0 : List.countP isAddConnection t.calls = 0 := by omega
  have hfree : Call.MyFree ∉ t.calls := List.count_eq_zero.1 hf0
  rcases ha with h | h | ⟨h | h, h1, h2⟩ <;> subst h
  · simp [deliver, engineDiscipline, ssl_sock_callback, ssl_abort, List.count_append,
      List.countP_append, isAddConnection, hd, hfree, hd0, hf0, ha0, i3]
  · simp [deliver, engineDiscipline, ssl_sock_callback, ssl_abort, List.count_append,
      List.countP_append, isAddConnection, hd, hfree, hd0, hf0, ha0, i3]
  · simp [deliver, engineDiscipline, ssl_sock_callback,
      ssl_accept_of_error_queued t.data o h1 h2, List.count_append,
      List.countP_append, isAddConnection, hd, hfree, hd0, hf0, ha0, i3]
  · simp [deliver, engineDiscipline, ssl_sock_callback,
      ssl_accept_of_error_queued t.data o h1 h2, List.count_append,
      List.countP_append, isAddConnection, hd, hfree, hd0, hf0, ha0, i3]

/-- From a pending connection whose socket is still registered, an accept step
that completes the handshake deletes the socket and calls `add_connection`
once, and the `ET_DESTROY` that follows releases the listener's reference. -/
theorem promote_then_destroy (r0 : Int) (t : Pending) (e : EventType) (o x : AcceptOutcome)
    (hinv : RefInv r0 t) (hd : Call.socket_del ∉ t.calls)
    (he : e = EventType.ET_READ ∨ e = EventType.ET_WRITE)
    (h1 : 0 < o.accept_ret) (h2 : o.init_finished = true) :
    engineDiscipline t [(e, o), (EventType.ET_DESTROY, x)] = true ∧
    Call.socket_del ∈ (deliver t [(e, o)]).calls ∧
    (deliver t [(e, o)]).ref_count = r0 + 1 ∧
    (deliver t [(e, o), (EventType.ET_DESTROY, x)]).ref_count = r0 ∧
    List.count Call.socket_del (deliver t [(e, o), (EventType.ET_DESTROY, x)]).calls = 1 ∧
    List.count Call.MyFree (deliver t [(e, o), (EventType.ET_DESTROY, x)]).calls = 1 ∧
    List.countP isAddConnection
      (deliver t [(e, o), (EventType.ET_DESTROY, x)]).calls = 1 ∧
    Call.add_connection t.data.listener t.data.fd t.data.ssl
      ∈ (deliver t [(e, o), (EventType.ET_DESTROY, x)]).calls := by
  obtain ⟨i1, i2, i3, i4⟩ := hinv
  have hd0 : List.count Call.socket_del t.calls = 0 := List.count_eq_zero.2 hd
  have hf0 : List.count Call.MyFree t.calls = 0 := by omega
  have ha0 : List.countP isAddConnection t.calls = 0 := by omega
  have hfree : Call.MyFree ∉ t.calls := List.count_eq_zero.1 hf0
  rcases he with h | h <;> subst h <;>
    simp [deliver, engineDiscipline, ssl_sock_callback,
      ssl_accept_of_finished t.data o h1 h2, List.count_append,
      List.countP_append, isAddConnection, hd, hfree, hd0, hf0, ha0, i3]

/-- From a pending connection whose socket is still registered, an accept step
that neither fails with an error queued nor completes the handshake, and an
event of any other type but `ET_ERROR`, `ET_EOF` and `ET_DESTROY`, leaves the
socket registered and the listener's reference held. -/
theorem idle_step (r0 : Int) (t : Pending) (e : EventType) (o : AcceptOutcome)
    (hinv : RefInv r0 t) (hd : Call.socket_del ∉ t.calls)
    (hi : ((e = EventType.ET_READ ∨ e = EventType.ET_WRITE) ∧
        ((o.accept_ret ≤ 0 ∧ o.err = 0) ∨ (0 < o.accept_ret ∧ o.init_finished = false))) ∨
      e = EventType.ET_ACCEPT ∨ e = EventType.ET_CONNECT ∨ e = EventType.ET_SIGNAL ∨
      e = EventType.ET_EXPIRE) :
    engineDiscipline t [(e, o)] = true ∧
    Call.socket_del ∉ (deliver t [(e, o)]).calls ∧
    (deliver t [(e, o)]).ref_count = r0 + 1 := by
  obtain ⟨i1, i2, i3, i4⟩ := hinv
  have hd0 : List.count Call.socket_del t.calls = 0 := List.count_eq_zero.2 hd
  have hf0 : List.count Call.MyFree t.calls = 0 := by omega
  have hfree : Call.MyFree ∉ t.calls := List.count_eq_zero.1 hf0
  have hacc : ((o.accept_ret ≤ 0 ∧ o.err = 0) ∨ (0 < o.accept_ret ∧ o.init_finished = false)) →
      ssl_accept t.data o = [Call.SSL_accept t.data.ssl] := by
    rintro (⟨a, b⟩ | ⟨a, b⟩)
    · exact ssl_accept_of_empty_queue t.data o a b
    · exact ssl_accept_of_unfinished t.data o a b
  rcases hi with ⟨h | h, hc⟩ | h | h | h | h <;> subst h
  · simp [deliver, engineDiscipline, ssl_sock_callback, hacc hc, hd, hfree, hf0, i3]
  · simp [deliver, engineDiscipline, ssl_sock_callback, hacc hc, hd, hfree, hf0, i3]
  all_goals simp [deliver, engineDiscipline, ssl_sock_callback, hd, hfree, hf0, i3]

/-- C7. A call of `ssl_add_connection` that reaches its end leaves the
listener's `ref_count` one above its value `r0` before the call.  For every
sequence of events then delivered to `ssl_sock_callback` under the engine's
discipline (each `socket_del` followed by exactly one `ET_DESTROY`, nothing
after it): `socket_del` is called at most once, `ET_DESTROY` is handled at most
once and only after `socket_del`, `add_connection` is called at most once, and
`ref_count` is `r0 + 1` until the `ET_DESTROY` is handled and `r0` from then
on.  While the socket is registered, every further event is of one of three
kinds.  An abort (`ET_ERROR`, `ET_EOF`, or a READ/WRITE whose accept step fails
with an error queued) frees the session, closes the descriptor and calls
`socket_del`, and the `ET_DESTROY` that follows brings `ref_count` to `r0`,
with `add_connection` never called.  A READ/WRITE whose accept step is
Established calls `socket_del` and `add_connection` with the session's
listener, descriptor and session, and the `ET_DESTROY` that follows brings
`ref_count` to `r0`.  Any other event leaves the socket registered and
`ref_count` at `r0 + 1`.  In particular, after three READ/WRITE events whose
accept step is Blocked with no error queued, one whose accept step is
Established, and the `ET_DESTROY` that follows, `add_connection` has been called
exactly once and `ref_count` is `r0` again.  Only the changes `ssl.c` itself
makes to `ref_count` are counted. -/
theorem ref_count_lifecycle (r0 : Int) (listener : Nat) (fd : Int) (ctx : CTXp)
    (o : AddOutcome) (p : Pending) (evs : List Delivery)
    (hstart : o.started = true)
    (hp : (ssl_add_connection r0 listener fd ctx o).pending = some p)
    (hdisc : engineDiscipline p evs = true) :
    p.ref_count = r0 + 1 ∧
    p.data.listener = listener ∧ p.data.fd = fd ∧
    RefInv r0 (deliver p evs) ∧
    List.count Call.MyFree (deliver p evs).calls ≤ 1 ∧
    List.count Call.socket_del (deliver p evs).calls ≤ 1 ∧
    List.countP isAddConnection (deliver p evs).calls ≤ 1 ∧
    (Call.MyFree ∈ (deliver p evs).calls → Call.socket_del ∈ (deliver p evs).calls) ∧
    (deliver p evs).ref_count
      = (if Call.MyFree ∈ (deliver p evs).calls then r0 else r0 + 1) ∧
    (Call.socket_del ∉ (deliver p evs).calls →
      ∀ (e : EventType) (o x : AcceptOutcome),
        (e = EventType.ET_ERROR ∨ e = EventType.ET_EOF ∨
          ((e = EventType.ET_READ ∨ e = EventType.ET_WRITE) ∧
            o.accept_ret ≤ 0 ∧ o.err ≠ 0)) →
        engineDiscipline p (evs ++ [(e, o), (EventType.ET_DESTROY, x)]) = true ∧
        Call.socket_del ∈ (deliver p (evs ++ [(e, o)])).calls ∧
        (deliver p (evs ++ [(e, o)])).ref_count = r0 + 1 ∧
        (deliver p (evs ++ [(e, o), (EventType.ET_DESTROY, x)])).ref_count = r0 ∧
        List.count Call.socket_del
          (deliver p (evs ++ [(e, o), (EventType.ET_DESTROY, x)])).calls = 1 ∧
        List.count Call.MyFree
          (deliver p (evs ++ [(e, o), (EventType.ET_DESTROY, x)])).calls = 1 ∧
        List.countP isAddConnection
          (deliver p (evs ++ [(e, o), (EventType.ET_DESTROY, x)])).calls = 0 ∧
        Call.SSL_free p.data.ssl
          ∈ (deliver p (evs ++ [(e, o), (EventType.ET_DESTROY, x)])).calls ∧
        Call.close fd
          ∈ (deliver p (evs ++ [(e, o), (EventType.ET_DESTROY, x)])).calls) ∧
    (Call.socket_del ∉ (deliver p evs).calls →
      ∀ (e : EventType) (o x : AcceptOutcome),
        (e = EventType.ET_READ ∨ e = EventType.ET_WRITE) → o.established = true →
        engineDiscipline p (evs ++ [(e, o), (EventType.ET_DESTROY, x)]) = true ∧
        Call.socket_del ∈ (deliver p (evs ++ [(e, o)])).calls ∧
        (deliver p (evs ++ [(e, o)])).ref_count = r0 + 1 ∧
        (deliver p (evs ++ [(e, o), (EventType.ET_DESTROY, x)])).ref_count = r0 ∧
        List.count Call.socket_del
          (deliver p (evs ++ [(e, o), (EventType.ET_DESTROY, x)])).calls = 1 ∧
        List.count Call.MyFree
          (deliver p (evs ++ [(e, o), (EventType.ET_DESTROY, x)])).calls = 1 ∧
        List.countP isAddConnection
          (deliver p (evs ++ [(e, o), (EventType.ET_DESTROY, x)])).calls = 1 ∧
        Call.add_connection listener fd p.data.ssl
          ∈ (deliver p (evs ++ [(e, o), (EventType.ET_DESTROY, x)])).calls) ∧
    (Call.socket_del ∉ (deliver p evs).calls →
      ∀ (e : EventType) (o : AcceptOutcome),
        (((e = EventType.ET_READ ∨ e = EventType.ET_WRITE) ∧
            ((o.accept_ret ≤ 0 ∧ o.err = 0) ∨
             (0 < o.accept_ret ∧ o.init_finished = false))) ∨
          e = EventType.ET_ACCEPT ∨ e = EventType.ET_CONNECT ∨
          e = EventType.ET_SIGNAL ∨ e = EventType.ET_EXPIRE) →
        engineDiscipline p (evs ++ [(e, o)]) = true ∧
        Call.socket_del ∉ (deliver p (evs ++ [(e, o)])).calls ∧
        (deliver p (evs ++ [(e, o)])).ref_count = r0 + 1) ∧
    (∀ (e1 e2 e3 e4 : EventType) (b1 b2 b3 c x : AcceptOutcome),
      (e1 = EventType.ET_READ ∨ e1 = EventType.ET_WRITE) →
      (e2 = EventType.ET_READ ∨ e2 = EventType.ET_WRITE) →
      (e3 = EventType.ET_READ ∨ e3 = EventType.ET_WRITE) →
      (e4 = EventType.ET_READ ∨ e4 = EventType.ET_WRITE) →
      (b1.blocked = true ∧ b1.err = 0) → (b2.blocked = true ∧ b2.err = 0) →
      (b3.blocked = true ∧ b3.err = 0) → c.established = true →
      engineDiscipline p
        [(e1, b1), (e2, b2), (e3, b3), (e4, c), (EventType.ET_DESTROY, x)] = true ∧
      (deliver p [(e1, b1), (e2, b2), (e3, b3), (e4, c)]).ref_count = r0 + 1 ∧
      (deliver p
        [(e1, b1), (e2, b2), (e3, b3), (e4, c), (EventType.ET_DESTROY, x)]).ref_count = r0 ∧
      List.countP isAddConnection (deliver p
        [(e1, b1), (e2, b2), (e3, b3), (e4, c), (EventType.ET_DESTROY, x)]).calls = 1 ∧
      List.count (Call.add_connection listener fd p.data.ssl) (deliver p
        [(e1, b1), (e2, b2), (e3, b3), (e4, c), (EventType.ET_DESTROY, x)]).calls = 1 ∧
      List.count Call.socket_del (deliver p
        [(e1, b1), (e2, b2), (e3, b3), (e4, c), (EventType.ET_DESTROY, x)]).calls = 1 ∧
      List.count Call.MyFree (deliver p
        [(e1, b1), (e2, b2), (e3, b3), (e4, c), (EventType.ET_DESTROY, x)]).calls = 1) := by
  obtain ⟨s, hs⟩ := ssl_add_connection_started r0 listener fd ctx o p hstart hp
  have hinit : RefInv r0 p := by
    subst hs
    unfold RefInv
    simp [isAddConnection]
  have hfin := refInv_deliver r0 evs p hinit hdisc
  have hdata : (deliver p evs).data = p.data := deliver_data evs p
  have hfd : p.data.fd = fd := by rw [hs]
  have hlis : p.data.listener = listener := by rw [hs]
  obtain ⟨i1, i2, i3, i4⟩ := hfin
  refine ⟨by rw [hs], hlis, hfd, ⟨i1, i2, i3, i4⟩, by omega, i2, by omega,
    ?_, ?_, ?_, ?_, ?_, ?_⟩
  · intro hm
    have : 0 < List.count Call.MyFree (deliver p evs).calls := List.count_pos_iff.2 hm
    exact List.count_pos_iff.1 (by omega)
  · by_cases hm : Call.MyFree ∈ (deliver p evs).calls
    · have : 0 < List.count Call.MyFree (deliver p evs).calls := List.count_pos_iff.2 hm
      rw [if_pos hm, i3]; omega
    · have : List.count Call.MyFree (deliver p evs).calls = 0 := List.count_eq_zero.2 hm
      rw [if_neg hm, i3, this]; simp
  · intro hd e o x ha
    obtain ⟨a1, a2, a3, a4, a5, a6, a7, a8, a9⟩ :=
      abort_then_destroy r0 (deliver p evs) e o x ⟨i1, i2, i3, i4⟩ hd ha
    rw [hdata] at a8 a9
    rw [hfd] at a9
    simp only [engineDiscipline_append, deliver_append, hdisc, Bool.true_and]
    exact ⟨a1, a2, a3, a4, a5, a6, a7, a8, a9⟩
  · intro hd e o x he hest
    have hest' : 0 < o.accept_ret ∧ o.init_finished = true := by
      simpa [AcceptOutcome.established] using hest
    obtain ⟨a1, a2, a3, a4, a5, a6, a7, a8⟩ :=
      promote_then_destroy r0 (deliver p evs) e o x ⟨i1, i2, i3, i4⟩ hd he hest'.1 hest'.2
    rw [hdata, hfd, hlis] at a8
    simp only [engineDiscipline_append, deliver_append, hdisc, Bool.true_and]
    exact ⟨a1, a2, a3, a4, a5, a6, a7, a8⟩
  · intro hd e o hi
    obtain ⟨a1, a2, a3⟩ := idle_step r0 (deliver p evs) e o ⟨i1, i2, i3, i4⟩ hd hi
    simp only [engineDiscipline_append, deliver_append, hdisc, Bool.true_and]
    exact ⟨a1, a2, a3⟩
  · intro e1 e2 e3 e4 b1 b2 b3 c x h1 h2 h3 h4 hb1 hb2 hb3 hc
    have blk : ∀ b : AcceptOutcome, b.blocked = true ∧ b.err = 0 →
        ∀ d : ssl_data, ssl_accept d b = [Call.SSL_accept d.ssl] := by
      intro b hb d
      have hr : b.accept_ret ≤ 0 := by
        have := hb.1
        simp [AcceptOutcome.blocked] at this
        exact this.1
      exact ssl_accept_of_empty_queue d b hr hb.2
    have hc' : 0 < c.accept_ret ∧ c.init_finished = true := by
      simpa [AcceptOutcome.established] using hc
    have cb : ∀ (e : EventType) (a : AcceptOutcome),
        (e = EventType.ET_READ ∨ e = EventType.ET_WRITE) →
        (∀ t : Pending, ssl_sock_callback t e a =
          { t with calls := t.calls ++ ssl_accept t.data a }) ∧
        e ≠ EventType.ET_DESTROY := by
      rintro e a (h | h) <;> subst h <;> exact ⟨fun _ => rfl, by decide⟩
    have hdes : ∀ (t : Pending) (a : AcceptOutcome),
        ssl_sock_callback t EventType.ET_DESTROY a =
          { t with ref_count := t.ref_count - 1, calls := t.calls ++ [Call.MyFree] } :=
      fun _ _ => rfl
    subst hs
    simp [deliver, engineDiscipline, (cb e1 b1 h1).1, (cb e1 b1 h1).2, (cb e2 b2 h2).1,
      (cb e2 b2 h2).2, (cb e3 b3 h3).1, (cb e3 b3 h3).2, (cb e4 c h4).1, (cb e4 c h4).2,
      hdes, blk b1 hb1, blk b2 hb2, blk b3 hb3,
      fun d => ssl_accept_of_finished d c hc'.1 hc'.2,
      isAddConnection, List.count_cons]

/-- C7 at the sample session and the sample delivery sequence. -/
theorem ref_count_lifecycle_witness :
    samplePending.ref_count = 5 + 1 ∧
    samplePending.data.listener = 1 ∧ samplePending.data.fd = 7 ∧
    RefInv 5 (deliver samplePending sampleDeliveries) ∧
    List.count Call.MyFree (deliver samplePending sampleDeliveries).calls ≤ 1 ∧
    List.count Call.socket_del (deliver samplePending sampleDeliveries).calls ≤ 1 ∧
    List.countP isAddConnection (deliver samplePending sampleDeliveries).calls ≤ 1 ∧
    (Call.MyFree ∈ (deliver samplePending sampleDeliveries).calls → Call.socket_del ∈ (deliver samplePending sampleDeliveries).calls) ∧
    (deliver samplePending sampleDeliveries).ref_count
      = (if Call.MyFree ∈ (deliver samplePending sampleDeliveries).calls then 5 else 5 + 1) ∧
    (Call.socket_del ∉ (deliver samplePending sampleDeliveries).calls →
      ∀ (e : EventType) (o x : AcceptOutcome),
        (e = EventType.ET_ERROR ∨ e = EventType.ET_EOF ∨
          ((e = EventType.ET_READ ∨ e = EventType.ET_WRITE) ∧
            o.accept_ret ≤ 0 ∧ o.err ≠ 0)) →
        engineDiscipline samplePending (sampleDeliveries ++ [(e, o), (EventType.ET_DESTROY, x)]) = true ∧
        Call.socket_del ∈ (deliver samplePending (sampleDeliveries ++ [(e, o)])).calls ∧
        (deliver samplePending (sampleDeliveries ++ [(e, o)])).ref_count = 5 + 1 ∧
        (deliver samplePending (sampleDeliveries ++ [(e, o), (EventType.ET_DESTROY, x)])).ref_count = 5 ∧
        List.count Call.socket_del
          (deliver samplePending (sampleDeliveries ++ [(e, o), (EventType.ET_DESTROY, x)])).calls = 1 ∧
        List.count Call.MyFree
          (deliver samplePending (sampleDeliveries ++ [(e, o), (EventType.ET_DESTROY, x)])).calls = 1 ∧
        List.countP isAddConnection
          (deliver samplePending (sampleDeliveries ++ [(e, o), (EventType.ET_DESTROY, x)])).calls = 0 ∧
        Call.SSL_free samplePending.data.ssl
          ∈ (deliver samplePending (sampleDeliveries ++ [(e, o), (EventType.ET_DESTROY, x)])).calls ∧
        Call.close 7
          ∈ (deliver samplePending (sampleDeliveries ++ [(e, o), (EventType.ET_DESTROY, x)])).calls) ∧
    (Call.socket_del ∉ (deliver samplePending sampleDeliveries).calls →
      ∀ (e : EventType) (o x : AcceptOutcome),
        (e = EventType.ET_READ ∨ e = EventType.ET_WRITE) → o.established = true →
        engineDiscipline samplePending (sampleDeliveries ++ [(e, o), (EventType.ET_DESTROY, x)]) = true ∧
        Call.socket_del ∈ (deliver samplePending (sampleDeliveries ++ [(e, o)])).calls ∧
        (deliver samplePending (sampleDeliveries ++ [(e, o)])).ref_count = 5 + 1 ∧
        (deliver samplePending (sampleDeliveries ++ [(e, o), (EventType.ET_DESTROY, x)])).ref_count = 5 ∧
        List.count Call.socket_del
          (deliver samplePending (sampleDeliveries ++ [(e, o), (EventType.ET_DESTROY, x)])).calls = 1 ∧
        List.count Call.MyFree
          (deliver samplePending (sampleDeliveries ++ [(e, o), (EventType.ET_DESTROY, x)])).calls = 1 ∧
        List.countP isAddConnection
          (deliver samplePending (sampleDeliveries ++ [(e, o), (EventType.ET_DESTROY, x)])).calls = 1 ∧
        Call.add_connection 1 7 samplePending.data.ssl
          ∈ (deliver samplePending (sampleDeliveries ++ [(e, o), (EventType.ET_DESTROY, x)])).calls) ∧
    (Call.socket_del ∉ (deliver samplePending sampleDeliveries).calls →
      ∀ (e : EventType) (o : AcceptOutcome),
        (((e = EventType.ET_READ ∨ e = EventType.ET_WRITE) ∧
            ((o.accept_ret ≤ 0 ∧ o.err = 0) ∨
             (0 < o.accept_ret ∧ o.init_finished = false))) ∨
          e = EventType.ET_ACCEPT ∨ e = EventType.ET_CONNECT ∨
          e = EventType.ET_SIGNAL ∨ e = EventType.ET_EXPIRE) →
        engineDiscipline samplePending (sampleDeliveries ++ [(e, o)]) = true ∧
        Call.socket_del ∉ (deliver samplePending (sampleDeliveries ++ [(e, o)])).calls ∧
        (deliver samplePending (sampleDeliveries ++ [(e, o)])).ref_count = 5 + 1) ∧
    (∀ (e1 e2 e3 e4 : EventType) (b1 b2 b3 c x : AcceptOutcome),
      (e1 = EventType.ET_READ ∨ e1 = EventType.ET_WRITE) →
      (e2 = EventType.ET_READ ∨ e2 = EventType.ET_WRITE) →
      (e3 = EventType.ET_READ ∨ e3 = EventType.ET_WRITE) →
      (e4 = EventType.ET_READ ∨ e4 = EventType.ET_WRITE) →
      (b1.blocked = true ∧ b1.err = 0) → (b2.blocked = true ∧ b2.err = 0) →
      (b3.blocked = true ∧ b3.err = 0) → c.established = true →
      engineDiscipline samplePending
        [(e1, b1), (e2, b2), (e3, b3), (e4, c), (EventType.ET_DESTROY, x)] = true ∧
      (deliver samplePending [(e1, b1), (e2, b2), (e3, b3), (e4, c)]).ref_count = 5 + 1 ∧
      (deliver samplePending
        [(e1, b1), (e2, b2), (e3, b3), (e4, c), (EventType.ET_DESTROY, x)]).ref_count = 5 ∧
      List.countP isAddConnection (deliver samplePending
        [(e1, b1), (e2, b2), (e3, b3), (e4, c), (EventType.ET_DESTROY, x)]).calls = 1 ∧
      List.count (Call.add_connection 1 7 samplePending.data.ssl) (deliver samplePending
        [(e1, b1), (e2, b2), (e3, b3), (e4, c), (EventType.ET_DESTROY, x)]).calls = 1 ∧
      List.count Call.socket_del (deliver samplePending
        [(e1, b1), (e2, b2), (e3, b3), (e4, c), (EventType.ET_DESTROY, x)]).calls = 1 ∧
      List.count Call.MyFree (deliver samplePending
        [(e1, b1), (e2, b2), (e3, b3), (e4, c), (EventType.ET_DESTROY, x)]).calls = 1) :=
  ref_count_lifecycle 5 1 7 (some 3) sampleAdd samplePending sampleDeliveries
    (by decide) (by decide) (by decide)

end IrcdSsl
